import Mathlib

/-!
# Proposal lifecycle engine: a shallow embedding of the Go sources

The development follows the layering of the repository:

* `pkg/statemachine/machine.go`           : the generic transition engine,
* `internal/domain/common`                : base entity, tenant context, events,
* `internal/domain/proposal/states.go`    : the proposal workflow and state metadata,
* `internal/domain/proposal/entity.go`    : the proposal aggregate,
* `internal/domain/proposal/service.go`   : the domain service,
* `internal/application/proposal/service.go` : the application service.
* `internal/infrastructure/postgres/proposal_repo.go` : the upsert behind `Save`,
* `internal/infrastructure/ruvector/embeddings.go` : the embedding cache.

Conventions of the embedding.

* A Go `map[K]V` is a `GoMap K V`: a list of entries whose keys are pairwise distinct.
  Go leaves the iteration order of a map unspecified; the order of the entry list is
  one admissible order, and no theorem below depends on it.
* A pointer receiver that is mutated in place becomes explicit state passing: the
  function returns the final value of the object next to its Go result.
* `time.Now()` and `uuid.New()` are inputs, gathered in a `Clock`.
* Go's `int` is 64 bits wide: a value is an `Int` in the range from `-2^63` to
  `2^63 - 1`, and the increment of the version counter wraps around (`wrapInt64`).
* Guards are pure predicates, callbacks are state transformers on a world `W`.
* Locks (`sync.RWMutex`) have no sequential content and are omitted.
-/

namespace Huron

/-! ## Go maps -/

/-- A Go map: finitely many entries with pairwise distinct keys. -/
structure GoMap (K V : Type) where
  entries : List (K × V)
  nodupKeys : (entries.map Prod.fst).Nodup

namespace GoMap

variable {K V : Type}

/-- The expression `make(map[K]V)`. -/
def make : GoMap K V := ⟨[], List.nodup_nil⟩

/-- The lookup `v, ok := m[k]`. -/
def get? [DecidableEq K] (m : GoMap K V) (k : K) : Option V :=
  (m.entries.find? (fun e => decide (e.1 = k))).map Prod.snd

/-- The assignment `m[k] = v`: the entry of `k`, if any, is replaced. -/
def set [DecidableEq K] (m : GoMap K V) (k : K) (v : V) : GoMap K V :=
  ⟨(k, v) :: m.entries.filter (fun e => decide (e.1 ≠ k)), by
    rw [List.map_cons, List.nodup_cons]
    constructor
    · intro h
      obtain ⟨e, he, hk⟩ := List.mem_map.1 h
      have hne := (List.mem_filter.1 he).2
      simp at hne
      exact hne hk
    · exact ((List.filter_sublist m.entries).map Prod.fst).nodup m.nodupKeys⟩

/-- The statement `delete(m, k)`. -/
def delete [DecidableEq K] (m : GoMap K V) (k : K) : GoMap K V :=
  ⟨m.entries.filter (fun e => decide (e.1 ≠ k)),
    ((List.filter_sublist m.entries).map Prod.fst).nodup m.nodupKeys⟩

/-- The expression `len(m)`. -/
def len (m : GoMap K V) : Int := m.entries.length

end GoMap

/-- The error values of the repository. Go compares errors by identity, so the two
package-level `ErrInvalidTransition` variables (one in `statemachine`, one in
`proposal`) are different values although their messages agree. `new` is an
`errors.New` at another site and `wrap` is `fmt.Errorf("...: %w", err)`. -/
inductive Error where
  | statemachineErrInvalidTransition
  | statemachineErrNoTransitions
  | ErrInvalidTransition
  | ErrProposalNotEditable
  | ErrVersionMismatch
  | ErrProposalNotFound
  | ErrUnauthorized
  | ErrInvalidInput
  | new (msg : String)
  | wrap (msg : String) (err : Error)
  deriving DecidableEq, Repr

/-! ## `pkg/statemachine/machine.go` -/

namespace statemachine

/-- The generic engine `StateMachine[S, T]`. -/
structure StateMachine (S T W : Type) where
  initialState : S
  transitions : GoMap S (GoMap T S)
  onEnter : GoMap S (List (S → W → W))
  onExit : GoMap S (List (S → W → W))
  guards : GoMap T (List (S → S → Bool))

namespace StateMachine

variable {S T W : Type} [DecidableEq S] [DecidableEq T]

/-- The constructor `New(initialState)`. -/
def New (initialState : S) : StateMachine S T W :=
  { initialState := initialState
    transitions := GoMap.make
    onEnter := GoMap.make
    onExit := GoMap.make
    guards := GoMap.make }

/-- The method `AddTransition(from, transition, to)`. -/
def AddTransition (sm : StateMachine S T W) (src : S) (transition : T) (dst : S) :
    StateMachine S T W :=
  let inner : GoMap T S :=
    match sm.transitions.get? src with
    | some m => m
    | none => GoMap.make
  { sm with transitions := sm.transitions.set src (inner.set transition dst) }

/-- The guard loop shared by the read operations: every guard registered for the
transition must accept `(from, to)`; no registration means no restriction. -/
def guardsAllow (sm : StateMachine S T W) (src : S) (transition : T) (dst : S) : Bool :=
  match sm.guards.get? transition with
  | some guards => guards.all (fun guard => guard src dst)
  | none => true

/-- The method `CanTransition(from, transition)`. -/
def CanTransition (sm : StateMachine S T W) (src : S) (transition : T) : Bool :=
  match sm.transitions.get? src with
  | some stateTransitions =>
    match stateTransitions.get? transition with
    | some dst => sm.guardsAllow src transition dst
    | none => false
  | none => false

/-- The method `GetNextState(from, transition)`. -/
def GetNextState (sm : StateMachine S T W) (src : S) (transition : T) : Except Error S :=
  match sm.transitions.get? src with
  | some stateTransitions =>
    match stateTransitions.get? transition with
    | some dst =>
      if sm.guardsAllow src transition dst then .ok dst
      else .error Error.statemachineErrInvalidTransition
    | none => .error Error.statemachineErrInvalidTransition
  | none => .error Error.statemachineErrInvalidTransition

/-- The method `GetAvailableTransitions(from)`. -/
def GetAvailableTransitions (sm : StateMachine S T W) (src : S) : List T :=
  match sm.transitions.get? src with
  | some stateTransitions =>
    (stateTransitions.entries.filter
      (fun e => sm.guardsAllow src e.1 e.2)).map Prod.fst
  | none => []

/-- The method `AddGuard(transition, guard)`. -/
def AddGuard (sm : StateMachine S T W) (transition : T) (guard : S → S → Bool) :
    StateMachine S T W :=
  let old : List (S → S → Bool) :=
    match sm.guards.get? transition with
    | some gs => gs
    | none => []
  { sm with guards := sm.guards.set transition (old ++ [guard]) }

/-- The method `OnEnter(state, callback)`. -/
def OnEnter (sm : StateMachine S T W) (state : S) (callback : S → W → W) :
    StateMachine S T W :=
  let old : List (S → W → W) :=
    match sm.onEnter.get? state with
    | some cbs => cbs
    | none => []
  { sm with onEnter := sm.onEnter.set state (old ++ [callback]) }

/-- The method `OnExit(state, callback)`. -/
def OnExit (sm : StateMachine S T W) (state : S) (callback : S → W → W) :
    StateMachine S T W :=
  let old : List (S → W → W) :=
    match sm.onExit.get? state with
    | some cbs => cbs
    | none => []
  { sm with onExit := sm.onExit.set state (old ++ [callback]) }

/-- The loop `for _, callback := range callbacks { callback(arg) }` on the world `w`. -/
def runCallbacks (callbacks : List (S → W → W)) (arg : S) (w : W) : W :=
  callbacks.foldl (fun w callback => callback arg w) w

/-- The method `ExecuteTransition(currentState, transition)`. The first component is the
world after the callbacks that were invoked, the second the pair the method returns. -/
def ExecuteTransition (sm : StateMachine S T W) (currentState : S) (transition : T) (w : W) :
    W × Except Error S :=
  match sm.transitions.get? currentState with
  | none => (w, .error Error.statemachineErrNoTransitions)
  | some stateTransitions =>
    match stateTransitions.get? transition with
    | none => (w, .error Error.statemachineErrInvalidTransition)
    | some nextState =>
      if ¬ sm.guardsAllow currentState transition nextState then
        (w, .error Error.statemachineErrInvalidTransition)
      else
        let w :=
          match sm.onExit.get? currentState with
          | some exitCallbacks => runCallbacks exitCallbacks nextState w
          | none => w
        let w :=
          match sm.onEnter.get? nextState with
          | some enterCallbacks => runCallbacks enterCallbacks currentState w
          | none => w
        (w, .ok nextState)

/-- The struct `TransitionInfo`. -/
structure TransitionInfo (S T : Type) where
  From : S
  Transition : T
  To : S

/-- The inner loop of `Clone`: `clone.AddTransition(from, transition, to)` for every
entry of the map `transitions` of one source state. -/
def cloneInner (clone : StateMachine S T W) (src : S) : List (T × S) → StateMachine S T W
  | [] => clone
  | e :: rest => cloneInner (clone.AddTransition src e.1 e.2) src rest

/-- The outer loop of `Clone` over `sm.transitions`. -/
def cloneOuter (clone : StateMachine S T W) : List (S × GoMap T S) → StateMachine S T W
  | [] => clone
  | e :: rest => cloneOuter (cloneInner clone e.1 e.2.entries) rest

/-- The method `Clone()`. It only reads `sm`; the result is the new engine. -/
def Clone (sm : StateMachine S T W) : StateMachine S T W :=
  cloneOuter (New sm.initialState) sm.transitions.entries

/-- The method `GetAllTransitions()`. -/
def GetAllTransitions (sm : StateMachine S T W) : List (TransitionInfo S T) :=
  sm.transitions.entries.flatMap
    (fun e => e.2.entries.map (fun e' => { From := e.1, Transition := e'.1, To := e'.2 }))

end StateMachine

end statemachine

/-! ## `internal/domain/common` -/

namespace common

/-- A `uuid.UUID`: sixteen bytes, read as one 128-bit number (big endian). -/
abbrev UUID := Fin (2 ^ 128)

/-- A `common.TenantID`. -/
abbrev TenantID := UUID

/-- An instant (`time.Time`). -/
abbrev Time := Nat

/-- The struct `BaseEntity`. -/
structure BaseEntity where
  ID : UUID
  TenantID : UUID
  CreatedAt : Time
  UpdatedAt : Time
  CreatedBy : UUID
  UpdatedBy : UUID
  Version : Int

/-- The constructor `NewBaseEntity(tenantID, userID)`; `id` is the result of `uuid.New()`
and `now` that of `time.Now().UTC()`. -/
def NewBaseEntity (tenantID : TenantID) (userID : UUID) (id : UUID) (now : Time) :
    BaseEntity :=
  { ID := id
    TenantID := tenantID
    CreatedAt := now
    UpdatedAt := now
    CreatedBy := userID
    UpdatedBy := userID
    Version := 1 }

/-- The value a 64-bit Go `int` holds after an arithmetic result `n`: signed integer
overflow does not fail in Go, the result wraps around modulo `2^64`. -/
def wrapInt64 (n : Int) : Int := (n + 2 ^ 63) % 2 ^ 64 - 2 ^ 63

/-- The method `BaseEntity.Touch(userID)`; `now` is the result of `time.Now().UTC()`.
The statement `e.Version++` is an increment of a Go `int`, which wraps around. -/
def BaseEntity.Touch (e : BaseEntity) (userID : UUID) (now : Time) : BaseEntity :=
  { e with UpdatedAt := now, UpdatedBy := userID, Version := wrapInt64 (e.Version + 1) }

/-- The struct `TenantContext`. -/
structure TenantContext where
  TenantID : UUID
  UserID : UUID
  Roles : List String

/-- The method `TenantContext.HasRole(role)`. -/
def TenantContext.HasRole (tc : TenantContext) (role : String) : Bool :=
  tc.Roles.any (fun r => decide (r = role))

/-- The struct `DateRange`. -/
structure DateRange where
  StartDate : Time
  EndDate : Time

/-- The struct `BaseDomainEvent`. -/
structure BaseDomainEvent where
  ID : UUID
  TypeName : String
  AggregateUUID : UUID
  Aggregate : String
  Tenant : UUID
  Occurred : Time
  EventVersion : Int
  deriving DecidableEq

/-- The constructor `NewBaseDomainEvent`; `id` is the result of `uuid.New()` and `now`
that of `time.Now().UTC()`. -/
def NewBaseDomainEvent (eventType : String) (aggregateID : UUID) (aggregateType : String)
    (tenantID : TenantID) (version : Int) (id : UUID) (now : Time) : BaseDomainEvent :=
  { ID := id
    TypeName := eventType
    AggregateUUID := aggregateID
    Aggregate := aggregateType
    Tenant := tenantID
    Occurred := now
    EventVersion := version }

/-- The implementations of the interface `DomainEvent` that the proposal aggregate emits. -/
inductive DomainEvent where
  | ProposalCreatedEvent (base : BaseDomainEvent) (Title : String)
      (PrincipalPI : UUID) (SponsorID : UUID)
  | ProposalStateChangedEvent (base : BaseDomainEvent) (FromState : String)
      (ToState : String) (Reason : String)
  deriving DecidableEq

/-- The constructor `NewProposalCreatedEvent`. -/
def NewProposalCreatedEvent (aggregateID : UUID) (tenantID : TenantID) (title : String)
    (principalPI sponsorID : UUID) (id : UUID) (now : Time) : DomainEvent :=
  .ProposalCreatedEvent
    (NewBaseDomainEvent "proposal.created" aggregateID "Proposal" tenantID 1 id now)
    title principalPI sponsorID

/-- The constructor `NewProposalStateChangedEvent`. -/
def NewProposalStateChangedEvent (aggregateID : UUID) (tenantID : TenantID) (version : Int)
    (fromState toState reason : String) (id : UUID) (now : Time) : DomainEvent :=
  .ProposalStateChangedEvent
    (NewBaseDomainEvent "proposal.state_changed" aggregateID "Proposal" tenantID version id now)
    fromState toState reason

/-- The struct `AggregateRoot`. -/
structure AggregateRoot where
  uncommittedEvents : List DomainEvent

/-- The method `AggregateRoot.AddEvent(event)`. -/
def AggregateRoot.AddEvent (ar : AggregateRoot) (event : DomainEvent) : AggregateRoot :=
  { ar with uncommittedEvents := ar.uncommittedEvents ++ [event] }

/-- The method `AggregateRoot.ClearUncommittedEvents()`. -/
def AggregateRoot.ClearUncommittedEvents (_ar : AggregateRoot) : AggregateRoot :=
  { uncommittedEvents := [] }

/-- The interface `EventStore`, as far as the services use it. -/
structure EventStore where
  Append : List DomainEvent → Option Error

/-- The interface `EventPublisher`. -/
structure EventPublisher where
  Publish : List DomainEvent → Option Error

end common

/-! ## `internal/domain/proposal/states.go` -/

namespace proposal

open common statemachine

/-- The string type `ProposalState`. -/
abbrev ProposalState := String

abbrev StateDraft : ProposalState := "DRAFT"
abbrev StateInProgress : ProposalState := "IN_PROGRESS"
abbrev StateInternalReview : ProposalState := "INTERNAL_REVIEW"
abbrev StateDeptReview : ProposalState := "DEPT_REVIEW"
abbrev StateOSPReview : ProposalState := "OSP_REVIEW"
abbrev StateCompliance : ProposalState := "COMPLIANCE_REVIEW"
abbrev StateBudgetReview : ProposalState := "BUDGET_REVIEW"
abbrev StatePendingApproval : ProposalState := "PENDING_APPROVAL"
abbrev StateApproved : ProposalState := "APPROVED"
abbrev StateRejected : ProposalState := "REJECTED"
abbrev StateRevisions : ProposalState := "REVISIONS_REQUESTED"
abbrev StateReadyToSubmit : ProposalState := "READY_TO_SUBMIT"
abbrev StateSubmitted : ProposalState := "SUBMITTED"
abbrev StateUnderReview : ProposalState := "UNDER_SPONSOR_REVIEW"
abbrev StateAwarded : ProposalState := "AWARDED"
abbrev StateNegotiation : ProposalState := "NEGOTIATION"
abbrev StateDeclined : ProposalState := "DECLINED"
abbrev StateNotFunded : ProposalState := "NOT_FUNDED"
abbrev StateActive : ProposalState := "ACTIVE"
abbrev StateCloseout : ProposalState := "CLOSEOUT"
abbrev StateClosed : ProposalState := "CLOSED"
abbrev StateWithdrawn : ProposalState := "WITHDRAWN"

/-- The method `ProposalState.String()`. -/
def ProposalState.String (s : ProposalState) : String := s

/-- The method `ProposalState.IsTerminal()`. -/
def ProposalState.IsTerminal (s : ProposalState) : Bool :=
  decide (s = StateClosed ∨ s = StateWithdrawn ∨ s = StateDeclined ∨ s = StateNotFunded)

/-- The method `ProposalState.CanEdit()`. -/
def ProposalState.CanEdit (s : ProposalState) : Bool :=
  decide (s = StateDraft ∨ s = StateInProgress ∨ s = StateRevisions)

/-- The string type `ProposalTransition`. -/
abbrev ProposalTransition := String

abbrev TransitionStart : ProposalTransition := "START"
abbrev TransitionSubmitForReview : ProposalTransition := "SUBMIT_FOR_REVIEW"
abbrev TransitionAdvanceReview : ProposalTransition := "ADVANCE_REVIEW"
abbrev TransitionRequestRevisions : ProposalTransition := "REQUEST_REVISIONS"
abbrev TransitionApprove : ProposalTransition := "APPROVE"
abbrev TransitionReject : ProposalTransition := "REJECT"
abbrev TransitionSubmitToSponsor : ProposalTransition := "SUBMIT_TO_SPONSOR"
abbrev TransitionAward : ProposalTransition := "AWARD"
abbrev TransitionNegotiate : ProposalTransition := "NEGOTIATE"
abbrev TransitionDecline : ProposalTransition := "DECLINE"
abbrev TransitionNotFund : ProposalTransition := "NOT_FUND"
abbrev TransitionActivate : ProposalTransition := "ACTIVATE"
abbrev TransitionCloseout : ProposalTransition := "CLOSEOUT"
abbrev TransitionClose : ProposalTransition := "CLOSE"
abbrev TransitionWithdraw : ProposalTransition := "WITHDRAW"
abbrev TransitionReopen : ProposalTransition := "REOPEN"

/-- The struct `ProposalStateMachine`: the embedded engine, without callbacks. -/
abbrev ProposalStateMachine := StateMachine ProposalState ProposalTransition Unit

/-- The local slice `transitions` of `NewProposalStateMachine`, in source order. -/
def NewProposalStateMachine.transitions :
    List (ProposalState × ProposalTransition × ProposalState) :=
  [ (StateDraft, TransitionStart, StateInProgress),
    (StateInProgress, TransitionSubmitForReview, StateInternalReview),
    (StateInternalReview, TransitionAdvanceReview, StateDeptReview),
    (StateInternalReview, TransitionRequestRevisions, StateRevisions),
    (StateDeptReview, TransitionAdvanceReview, StateOSPReview),
    (StateDeptReview, TransitionRequestRevisions, StateRevisions),
    (StateOSPReview, TransitionAdvanceReview, StateCompliance),
    (StateOSPReview, TransitionRequestRevisions, StateRevisions),
    (StateCompliance, TransitionAdvanceReview, StateBudgetReview),
    (StateCompliance, TransitionRequestRevisions, StateRevisions),
    (StateBudgetReview, TransitionAdvanceReview, StatePendingApproval),
    (StateBudgetReview, TransitionRequestRevisions, StateRevisions),
    (StatePendingApproval, TransitionApprove, StateApproved),
    (StatePendingApproval, TransitionReject, StateRejected),
    (StatePendingApproval, TransitionRequestRevisions, StateRevisions),
    (StateRevisions, TransitionSubmitForReview, StateInternalReview),
    (StateApproved, TransitionSubmitToSponsor, StateReadyToSubmit),
    (StateReadyToSubmit, TransitionSubmitToSponsor, StateSubmitted),
    (StateSubmitted, TransitionAdvanceReview, StateUnderReview),
    (StateUnderReview, TransitionAward, StateAwarded),
    (StateUnderReview, TransitionNegotiate, StateNegotiation),
    (StateUnderReview, TransitionDecline, StateDeclined),
    (StateUnderReview, TransitionNotFund, StateNotFunded),
    (StateNegotiation, TransitionAward, StateAwarded),
    (StateNegotiation, TransitionDecline, StateDeclined),
    (StateAwarded, TransitionActivate, StateActive),
    (StateActive, TransitionCloseout, StateCloseout),
    (StateCloseout, TransitionClose, StateClosed),
    (StateDraft, TransitionWithdraw, StateWithdrawn),
    (StateInProgress, TransitionWithdraw, StateWithdrawn),
    (StateInternalReview, TransitionWithdraw, StateWithdrawn),
    (StateDeptReview, TransitionWithdraw, StateWithdrawn),
    (StateOSPReview, TransitionWithdraw, StateWithdrawn),
    (StateCompliance, TransitionWithdraw, StateWithdrawn),
    (StateBudgetReview, TransitionWithdraw, StateWithdrawn),
    (StatePendingApproval, TransitionWithdraw, StateWithdrawn),
    (StateApproved, TransitionWithdraw, StateWithdrawn),
    (StateRevisions, TransitionWithdraw, StateWithdrawn),
    (StateReadyToSubmit, TransitionWithdraw, StateWithdrawn),
    (StateRejected, TransitionReopen, StateDraft) ]

/-- The loop `for _, t := range transitions { sm.AddTransition(...) }`. -/
def addAll (sm : ProposalStateMachine) :
    List (ProposalState × ProposalTransition × ProposalState) → ProposalStateMachine
  | [] => sm
  | t :: rest => addAll (sm.AddTransition t.1 t.2.1 t.2.2) rest

/-- The constructor `NewProposalStateMachine()`. -/
def NewProposalStateMachine : ProposalStateMachine :=
  addAll (StateMachine.New StateDraft) NewProposalStateMachine.transitions

/-- The struct `StateMetadata`. -/
structure StateMetadata where
  State : ProposalState
  DisplayName : String
  Description : String
  RequiredRoles : List String
  NotificationList : List String
  SLAHours : Int
  deriving DecidableEq

/-- The map literal `metadata` of `GetStateMetadata`. -/
def GetStateMetadata.metadata : List (ProposalState × StateMetadata) :=
  [ (StateDraft,
      { State := StateDraft, DisplayName := "Draft",
        Description := "Proposal is being drafted",
        RequiredRoles := ["PI", "PROPOSAL_CREATOR"], NotificationList := [],
        SLAHours := 0 }),
    (StateInProgress,
      { State := StateInProgress, DisplayName := "In Progress",
        Description := "Proposal is actively being developed",
        RequiredRoles := ["PI", "PROPOSAL_CREATOR"], NotificationList := ["PI"],
        SLAHours := 0 }),
    (StateInternalReview,
      { State := StateInternalReview, DisplayName := "Internal Review",
        Description := "Proposal is under initial internal review",
        RequiredRoles := ["REVIEWER", "DEPT_ADMIN"],
        NotificationList := ["PI", "DEPT_ADMIN"], SLAHours := 48 }),
    (StateDeptReview,
      { State := StateDeptReview, DisplayName := "Department Review",
        Description := "Proposal is under department review",
        RequiredRoles := ["DEPT_HEAD", "DEPT_ADMIN"],
        NotificationList := ["PI", "DEPT_HEAD"], SLAHours := 72 }),
    (StateOSPReview,
      { State := StateOSPReview, DisplayName := "OSP Review",
        Description := "Proposal is under Office of Sponsored Programs review",
        RequiredRoles := ["OSP_OFFICER"],
        NotificationList := ["PI", "DEPT_HEAD", "OSP_OFFICER"], SLAHours := 96 }),
    (StateCompliance,
      { State := StateCompliance, DisplayName := "Compliance Review",
        Description := "Proposal is under compliance review",
        RequiredRoles := ["COMPLIANCE_OFFICER"],
        NotificationList := ["PI", "OSP_OFFICER"], SLAHours := 72 }),
    (StateBudgetReview,
      { State := StateBudgetReview, DisplayName := "Budget Review",
        Description := "Proposal budget is under review",
        RequiredRoles := ["BUDGET_OFFICER", "OSP_OFFICER"],
        NotificationList := ["PI", "OSP_OFFICER"], SLAHours := 48 }),
    (StatePendingApproval,
      { State := StatePendingApproval, DisplayName := "Pending Approval",
        Description := "Proposal is pending final approval",
        RequiredRoles := ["OSP_DIRECTOR", "AUTHORIZED_SIGNATORY"],
        NotificationList := ["PI", "OSP_DIRECTOR"], SLAHours := 24 }),
    (StateApproved,
      { State := StateApproved, DisplayName := "Approved",
        Description := "Proposal has been approved for submission",
        RequiredRoles := ["OSP_OFFICER"],
        NotificationList := ["PI", "OSP_OFFICER"], SLAHours := 0 }),
    (StateSubmitted,
      { State := StateSubmitted, DisplayName := "Submitted",
        Description := "Proposal has been submitted to sponsor",
        RequiredRoles := ["OSP_OFFICER"],
        NotificationList := ["PI", "OSP_OFFICER", "DEPT_HEAD"], SLAHours := 0 }),
    (StateAwarded,
      { State := StateAwarded, DisplayName := "Awarded",
        Description := "Proposal has been awarded",
        RequiredRoles := ["OSP_OFFICER", "GRANTS_ADMIN"],
        NotificationList := ["PI", "OSP_OFFICER", "DEPT_HEAD", "GRANTS_ADMIN"],
        SLAHours := 0 }),
    (StateActive,
      { State := StateActive, DisplayName := "Active",
        Description := "Award is active and funds are being expended",
        RequiredRoles := ["PI", "GRANTS_ADMIN"],
        NotificationList := ["PI", "GRANTS_ADMIN"], SLAHours := 0 }),
    (StateClosed,
      { State := StateClosed, DisplayName := "Closed",
        Description := "Award has been closed out",
        RequiredRoles := ["GRANTS_ADMIN"], NotificationList := [],
        SLAHours := 0 }) ]

/-- The function `GetStateMetadata(state)`. -/
def GetStateMetadata (state : ProposalState) : StateMetadata :=
  match GetStateMetadata.metadata.find? (fun e => decide (e.1 = state)) with
  | some e => e.2
  | none =>
    { State := state, DisplayName := state, Description := "Unknown state",
      RequiredRoles := [], NotificationList := [], SLAHours := 0 }

/-! ## `internal/domain/proposal/entity.go` -/

/-- The struct `KeyPerson`. -/
structure KeyPerson where
  PersonID : UUID
  Role : String
  Effort : Float
  CalendarMonths : Float
  AcademicMonths : Float
  SummerMonths : Float

/-- The struct `StateTransition`: one entry of the audit trail. -/
structure StateTransition where
  FromState : ProposalState
  ToState : ProposalState
  Transition : ProposalTransition
  PerformedBy : UUID
  PerformedAt : Time
  Comment : String
  deriving DecidableEq

/-- The struct `Attachment`. -/
structure Attachment where
  ID : UUID
  FileName : String
  FileType : String
  FileSizeBytes : Int
  StoragePath : String
  UploadedBy : UUID
  UploadedAt : Time
  Category : String

/-- The aggregate root `Proposal`; the embedded structs are parents. -/
structure Proposal extends BaseEntity, AggregateRoot where
  Title : String
  ShortTitle : String
  Abstract : String
  State : ProposalState
  ProposalNumber : String
  ExternalID : String
  PrincipalInvestigatorID : UUID
  CoInvestigators : List UUID
  KeyPersonnel : List KeyPerson
  SponsorID : UUID
  OpportunityID : Option UUID
  SponsorDeadline : Option Time
  InternalDeadline : Option Time
  ProjectPeriod : DateRange
  Department : String
  ResearchArea : String
  Keywords : List String
  BudgetID : Option UUID
  IRBRequired : Bool
  IACUCRequired : Bool
  IBCRequired : Bool
  ExportControl : Bool
  ConflictOfInterest : Bool
  Embedding : List Float
  StateHistory : List StateTransition
  Attachments : List Attachment

/-- The promoted method `Touch` of the embedded `BaseEntity`. -/
def Proposal.Touch (p : Proposal) (userID : UUID) (now : Time) : Proposal :=
  { p with toBaseEntity := p.toBaseEntity.Touch userID now }

/-- The promoted method `AddEvent` of the embedded `AggregateRoot`. -/
def Proposal.AddEvent (p : Proposal) (event : DomainEvent) : Proposal :=
  { p with toAggregateRoot := p.toAggregateRoot.AddEvent event }

/-- The promoted method `GetUncommittedEvents`. -/
def Proposal.GetUncommittedEvents (p : Proposal) : List DomainEvent :=
  p.uncommittedEvents

/-- The promoted method `ClearUncommittedEvents`. -/
def Proposal.ClearUncommittedEvents (p : Proposal) : Proposal :=
  { p with toAggregateRoot := p.toAggregateRoot.ClearUncommittedEvents }

/-- The method `uuid.UUID.String()`: 32 lower-case hexadecimal digits grouped 8-4-4-4-12. -/
def UUID.String (id : UUID) : String :=
  let digits : List Char :=
    (List.range 32).map (fun i => Nat.digitChar ((id.val / 16 ^ (31 - i)) % 16))
  String.mk
    (digits.take 8 ++ ['-'] ++ (digits.drop 8).take 4 ++ ['-'] ++ (digits.drop 12).take 4 ++
      ['-'] ++ (digits.drop 16).take 4 ++ ['-'] ++ digits.drop 20)

/-- The conversion `rune(n)` of an `int` to `int32`. -/
def toRune (n : Int) : Int := (n + 2 ^ 31) % 2 ^ 32 - 2 ^ 31

/-- The conversion `string(r)` of a rune: the one-character string of the code point `r`,
or U+FFFD when `r` is not a valid code point. -/
def runeString (r : Int) : String :=
  if 0 ≤ r ∧ (r < 0xD800 ∨ (0xDFFF < r ∧ r ≤ 0x10FFFF)) then
    String.singleton (Char.ofNat r.toNat)
  else "�"

/-- The function `generateProposalNumber(id)`; `year` is `time.Now().Year()`. -/
def generateProposalNumber (id : UUID) (year : Int) : String :=
  let shortID := String.mk ((UUID.String id).data.take 6)
  "PROP-" ++ runeString (toRune year) ++ "-" ++ shortID

/-- The readings of `uuid.New()` and `time.Now()` taken by `NewProposal`. -/
structure CreationClock where
  entityID : UUID
  createdAt : Time
  year : Int
  eventID : UUID
  occurredAt : Time

/-- The constructor `NewProposal`. -/
def NewProposal (tenantID : TenantID) (userID : UUID) (title : String) (piID : UUID)
    (sponsorID : UUID) (department : String) (projectPeriod : DateRange)
    (clock : CreationClock) : Proposal :=
  let p : Proposal :=
    { toBaseEntity := NewBaseEntity tenantID userID clock.entityID clock.createdAt
      uncommittedEvents := []
      Title := title
      ShortTitle := ""
      Abstract := ""
      State := StateDraft
      ProposalNumber := ""
      ExternalID := ""
      PrincipalInvestigatorID := piID
      CoInvestigators := []
      KeyPersonnel := []
      SponsorID := sponsorID
      OpportunityID := none
      SponsorDeadline := none
      InternalDeadline := none
      ProjectPeriod := projectPeriod
      Department := department
      ResearchArea := ""
      Keywords := []
      BudgetID := none
      IRBRequired := false
      IACUCRequired := false
      IBCRequired := false
      ExportControl := false
      ConflictOfInterest := false
      Embedding := []
      StateHistory := []
      Attachments := [] }
  let p := { p with ProposalNumber := generateProposalNumber p.ID clock.year }
  p.AddEvent
    (NewProposalCreatedEvent p.ID tenantID title piID sponsorID clock.eventID clock.occurredAt)

/-- The readings of `time.Now()` and `uuid.New()` taken by one `TransitionTo`. -/
structure Clock where
  performedAt : Time
  touchedAt : Time
  eventID : UUID
  occurredAt : Time

/-- The method `Proposal.TransitionTo(transition, userID, comment)`. The first component
is the aggregate after the call, the second the returned error (`none` is `nil`). -/
def Proposal.TransitionTo (p : Proposal) (transition : ProposalTransition) (userID : UUID)
    (comment : String) (clock : Clock) : Proposal × Option Error :=
  let sm := NewProposalStateMachine
  if ¬ sm.CanTransition p.State transition then
    (p, some Error.ErrInvalidTransition)
  else
    match sm.GetNextState p.State transition with
    | .error err => (p, some err)
    | .ok nextState =>
      let stateChange : StateTransition :=
        { FromState := p.State
          ToState := nextState
          Transition := transition
          PerformedBy := userID
          PerformedAt := clock.performedAt
          Comment := comment }
      let p := { p with StateHistory := p.StateHistory ++ [stateChange] }
      let oldState := p.State
      let p := { p with State := nextState }
      let p := p.Touch userID clock.touchedAt
      let p := p.AddEvent
        (NewProposalStateChangedEvent p.ID p.TenantID p.Version
          (ProposalState.String oldState) (ProposalState.String nextState) comment
          clock.eventID clock.occurredAt)
      (p, none)

/-- The method `Proposal.CanEdit()`. -/
def Proposal.CanEdit (p : Proposal) : Bool := ProposalState.CanEdit p.State

/-- The method `Proposal.GetAvailableTransitions()`. -/
def Proposal.GetAvailableTransitions (p : Proposal) : List ProposalTransition :=
  NewProposalStateMachine.GetAvailableTransitions p.State

/-- The struct `ProposalUpdates`: a `nil` pointer or slice is `none`. -/
structure ProposalUpdates where
  Title : Option String
  ShortTitle : Option String
  Abstract : Option String
  ResearchArea : Option String
  Keywords : Option (List String)
  SponsorDeadline : Option Time
  InternalDeadline : Option Time
  IRBRequired : Option Bool
  IACUCRequired : Option Bool
  IBCRequired : Option Bool
  ExportControl : Option Bool
  ConflictOfInterest : Option Bool

/-- The method `Proposal.Update(userID, updates)`; `now` is the clock reading of `Touch`. -/
def Proposal.Update (p : Proposal) (userID : UUID) (updates : ProposalUpdates) (now : Time) :
    Proposal × Option Error :=
  if ¬ p.CanEdit then
    (p, some Error.ErrProposalNotEditable)
  else
    let p := match updates.Title with
      | some v => { p with Title := v }
      | none => p
    let p := match updates.ShortTitle with
      | some v => { p with ShortTitle := v }
      | none => p
    let p := match updates.Abstract with
      | some v => { p with Abstract := v }
      | none => p
    let p := match updates.ResearchArea with
      | some v => { p with ResearchArea := v }
      | none => p
    let p := match updates.Keywords with
      | some v => { p with Keywords := v }
      | none => p
    let p := match updates.SponsorDeadline with
      | some v => { p with SponsorDeadline := some v }
      | none => p
    let p := match updates.InternalDeadline with
      | some v => { p with InternalDeadline := some v }
      | none => p
    let p := match updates.IRBRequired with
      | some v => { p with IRBRequired := v }
      | none => p
    let p := match updates.IACUCRequired with
      | some v => { p with IACUCRequired := v }
      | none => p
    let p := match updates.IBCRequired with
      | some v => { p with IBCRequired := v }
      | none => p
    let p := match updates.ExportControl with
      | some v => { p with ExportControl := v }
      | none => p
    let p := match updates.ConflictOfInterest with
      | some v => { p with ConflictOfInterest := v }
      | none => p
    (p.Touch userID now, none)

/-- The method `Proposal.AddCoInvestigator(userID, coiID)`. -/
def Proposal.AddCoInvestigator (p : Proposal) (userID coiID : UUID) (now : Time) :
    Proposal × Option Error :=
  if ¬ p.CanEdit then
    (p, some Error.ErrProposalNotEditable)
  else if p.CoInvestigators.any (fun coi => decide (coi = coiID)) then
    (p, none)
  else
    (({ p with CoInvestigators := p.CoInvestigators ++ [coiID] } : Proposal).Touch userID now,
      none)

/-- The method `Proposal.RemoveCoInvestigator(userID, coiID)`: the first occurrence is
cut out of the slice. -/
def Proposal.RemoveCoInvestigator (p : Proposal) (userID coiID : UUID) (now : Time) :
    Proposal × Option Error :=
  if ¬ p.CanEdit then
    (p, some Error.ErrProposalNotEditable)
  else if p.CoInvestigators.any (fun coi => decide (coi = coiID)) then
    (({ p with CoInvestigators := p.CoInvestigators.erase coiID } : Proposal).Touch userID now,
      none)
  else
    (p, none)

/-- The method `Proposal.AddKeyPerson(userID, keyPerson)`. -/
def Proposal.AddKeyPerson (p : Proposal) (userID : UUID) (keyPerson : KeyPerson)
    (now : Time) : Proposal × Option Error :=
  if ¬ p.CanEdit then
    (p, some Error.ErrProposalNotEditable)
  else
    (({ p with KeyPersonnel := p.KeyPersonnel ++ [keyPerson] } : Proposal).Touch userID now,
      none)

/-- The method `Proposal.AddAttachment(userID, attachment)`; `newID` is the result of
`uuid.New()`, `uploadedAt` and `now` are the two clock readings. -/
def Proposal.AddAttachment (p : Proposal) (userID : UUID) (attachment : Attachment)
    (newID : UUID) (uploadedAt : Time) (now : Time) : Proposal × Option Error :=
  if ¬ p.CanEdit then
    (p, some Error.ErrProposalNotEditable)
  else
    let attachment :=
      { attachment with ID := newID, UploadedBy := userID, UploadedAt := uploadedAt }
    (({ p with Attachments := p.Attachments ++ [attachment] } : Proposal).Touch userID now,
      none)

/-! ## `internal/domain/proposal/repository.go` and `service.go` -/

/-- The interface `Repository`, as far as the transition services use it. `Save` reads
the aggregate and reports an error or `nil`; `FindByID` reports an error, or the stored
aggregate, or `nil` when there is none. -/
structure Repository where
  Save : Proposal → Option Error
  FindByID : TenantID → UUID → Except Error (Option Proposal)

/-- The struct `Service` of the domain layer; a `nil` collaborator is `none`. -/
structure Service where
  repo : Repository
  eventStore : Option EventStore
  publisher : Option EventPublisher

/-- The struct `TransitionProposalInput`. -/
structure TransitionProposalInput where
  ProposalID : UUID
  Transition : ProposalTransition
  Comment : String
  ExpectedVersion : Int

/-- What a service call leaves behind: the in-memory aggregate it loaded, in its
final state (`none` when none was loaded), and the pair it returns. -/
structure Outcome where
  aggregate : Option Proposal
  result : Except Error Proposal

/-- The method `Service.GetProposal`. -/
def Service.GetProposal (s : Service) (tenantCtx : TenantContext) (id : UUID) :
    Except Error Proposal :=
  match s.repo.FindByID tenantCtx.TenantID id with
  | .error err => .error err
  | .ok none => .error Error.ErrProposalNotFound
  | .ok (some proposal) => .ok proposal

/-- The method `Service.canPerformTransition`. -/
def Service.canPerformTransition (_s : Service) (tenantCtx : TenantContext)
    (proposal : Proposal) (transition : ProposalTransition) : Bool :=
  let metadata := GetStateMetadata proposal.State
  if metadata.RequiredRoles.any (fun requiredRole => tenantCtx.HasRole requiredRole) then
    true
  else if transition = TransitionWithdraw ∧
      proposal.PrincipalInvestigatorID = tenantCtx.UserID then
    true
  else
    false

/-- The method `Service.TransitionProposal`. The call of `publisher.Publish` sits between
the append and the clearing of the events; its result is discarded (`_ =`), so it does
not appear in the outcome. -/
def Service.TransitionProposal (s : Service) (tenantCtx : TenantContext)
    (input : TransitionProposalInput) (clock : Clock) : Outcome :=
  match s.GetProposal tenantCtx input.ProposalID with
  | .error err => ⟨none, .error err⟩
  | .ok proposal =>
    if input.ExpectedVersion > 0 ∧ proposal.Version ≠ input.ExpectedVersion then
      ⟨some proposal, .error Error.ErrVersionMismatch⟩
    else if ¬ s.canPerformTransition tenantCtx proposal input.Transition then
      ⟨some proposal, .error Error.ErrUnauthorized⟩
    else
      match proposal.TransitionTo input.Transition tenantCtx.UserID input.Comment clock with
      | (proposal, some err) => ⟨some proposal, .error err⟩
      | (proposal, none) =>
        match s.repo.Save proposal with
        | some err => ⟨some proposal, .error (Error.wrap "failed to save proposal" err)⟩
        | none =>
          let appended : Option Error :=
            match s.eventStore with
            | some eventStore => eventStore.Append proposal.GetUncommittedEvents
            | none => none
          match appended with
          | some err => ⟨some proposal, .error (Error.wrap "failed to append events" err)⟩
          | none =>
            let proposal := proposal.ClearUncommittedEvents
            ⟨some proposal, .ok proposal⟩

end proposal

/-! ## `internal/application/proposal/service.go` -/

namespace appproposal

open common proposal

/-- The struct `Service` of the application layer. Only the repository decides what
`Transition` returns: the notifier and the audit logger are called after the save and
their results are discarded. -/
structure Service where
  repo : Repository

/-- The struct `TransitionCommand`. -/
structure TransitionCommand where
  ProposalID : UUID
  Transition : ProposalTransition
  Comment : String
  ExpectedVersion : Int

/-- The method `Service.Transition`, the operation behind
`POST /api/v1/proposals/{id}/transition`. -/
def Service.Transition (s : Service) (tenantCtx : TenantContext) (cmd : TransitionCommand)
    (clock : Clock) : Outcome :=
  match s.repo.FindByID tenantCtx.TenantID cmd.ProposalID with
  | .error err => ⟨none, .error err⟩
  | .ok none => ⟨none, .error (Error.new "proposal not found")⟩
  | .ok (some prop) =>
    if cmd.ExpectedVersion > 0 ∧ prop.Version ≠ cmd.ExpectedVersion then
      ⟨some prop, .error Error.ErrVersionMismatch⟩
    else
      match prop.TransitionTo cmd.Transition tenantCtx.UserID cmd.Comment clock with
      | (prop, some err) => ⟨some prop, .error err⟩
      | (prop, none) =>
        match s.repo.Save prop with
        | some err => ⟨some prop, .error (Error.wrap "failed to save proposal" err)⟩
        | none => ⟨some prop, .ok prop⟩

end appproposal

/-! ## `internal/infrastructure/postgres/proposal_repo.go` -/

namespace postgres

open common proposal

/-- The table `proposals`: one row per `id` (the conflict target of the upsert). -/
abbrev Table := GoMap UUID Proposal

/-- The method `ProposalRepository.Save`, read as what its one SQL statement does to the
table: `INSERT ... ON CONFLICT (id) DO UPDATE SET ..., version = proposals.version + 1
WHERE proposals.version = $34`, where `$34` is `p.Version`. Without a row for `p.ID` the
values of `p` are inserted. With a row whose version equals `p.Version` the listed
columns are overwritten and the stored version is incremented. Otherwise no row is
affected and the method returns `ErrVersionMismatch`. Failures of the connection and of
JSON marshalling are not modelled. -/
def ProposalRepository.Save (rows : Table) (p : Proposal) : Table × Option Error :=
  match rows.get? p.ID with
  | none => (rows.set p.ID p, none)
  | some row =>
    if row.Version = p.Version then
      (rows.set p.ID
        { row with
          Title := p.Title
          ShortTitle := p.ShortTitle
          Abstract := p.Abstract
          State := p.State
          ExternalID := p.ExternalID
          CoInvestigators := p.CoInvestigators
          KeyPersonnel := p.KeyPersonnel
          SponsorDeadline := p.SponsorDeadline
          InternalDeadline := p.InternalDeadline
          ProjectPeriod := p.ProjectPeriod
          ResearchArea := p.ResearchArea
          Keywords := p.Keywords
          BudgetID := p.BudgetID
          IRBRequired := p.IRBRequired
          IACUCRequired := p.IACUCRequired
          IBCRequired := p.IBCRequired
          ExportControl := p.ExportControl
          ConflictOfInterest := p.ConflictOfInterest
          Embedding := p.Embedding
          StateHistory := p.StateHistory
          Attachments := p.Attachments
          toBaseEntity :=
            { row.toBaseEntity with
              UpdatedAt := p.UpdatedAt
              UpdatedBy := p.UpdatedBy
              Version := row.Version + 1 } },
        none)
    else
      (rows, some Error.ErrVersionMismatch)

/-- The method `ProposalRepository.FindByID`, read as the lookup of the row. -/
def ProposalRepository.FindByID (rows : Table) (id : UUID) : Option Proposal :=
  rows.get? id

end postgres

/-! ## `internal/infrastructure/ruvector/embeddings.go` -/

namespace ruvector

/-- The struct `EmbeddingCache`; a `*cacheEntry` is its `embedding`. -/
structure EmbeddingCache where
  cache : GoMap String (List Float)
  order : List String
  maxSize : Int

/-- The constructor `NewEmbeddingCache(maxSize)`. -/
def NewEmbeddingCache (maxSize : Int) : EmbeddingCache :=
  let maxSize := if maxSize ≤ 0 then 1000 else maxSize
  { cache := GoMap.make, order := [], maxSize := maxSize }

/-- The method `EmbeddingCache.Get(key)`: the embedding and `true`, or `nil` and
`false` (`none`). It reads the cache and changes nothing. -/
def EmbeddingCache.Get (c : EmbeddingCache) (key : String) : Option (List Float) :=
  c.cache.get? key

/-- The method `EmbeddingCache.Set(key, embedding)`. The read `c.order[0]` of an empty
`order` (a panic in Go) needs `maxSize <= 0`, which `NewEmbeddingCache` excludes; the
model leaves the cache as it is there. -/
def EmbeddingCache.Set (c : EmbeddingCache) (key : String) (embedding : List Float) :
    EmbeddingCache :=
  match c.cache.get? key with
  | some _ => { c with cache := c.cache.set key embedding }
  | none =>
    let c :=
      if (c.order.length : Int) ≥ c.maxSize then
        match c.order with
        | oldest :: rest => { c with cache := c.cache.delete oldest, order := rest }
        | [] => c
      else c
    { c with cache := c.cache.set key embedding, order := c.order ++ [key] }

/-- The method `EmbeddingCache.Size()`. -/
def EmbeddingCache.Size (c : EmbeddingCache) : Int := c.cache.len

end ruvector

/-! ## The workflow as the specification enumerates it -/

namespace proposal

/-- The five review stages, in the order of the review chain. -/
def specReviewStages : List ProposalState :=
  [StateInternalReview, StateDeptReview, StateOSPReview, StateCompliance, StateBudgetReview]

/-- The eleven states the specification names as withdraw-eligible. -/
def specWithdrawEligible : List ProposalState :=
  [StateDraft, StateInProgress, StateInternalReview, StateDeptReview, StateOSPReview,
    StateCompliance, StateBudgetReview, StatePendingApproval, StateApproved, StateRevisions,
    StateReadyToSubmit]

/-- The edges of the workflow graph, written from the specification's enumeration
(section 4.2), independently of the source's table: linear intake, the review chain with
its `AdvanceReview` and `RequestRevisions` edges, the resubmission loop, the approval
fan-out, the two submission hops, sponsor review and its outcomes, negotiation, the
post-award path, the sole edge out of Rejected, and the `Withdraw` edges. -/
def specEdges : List (ProposalState × ProposalTransition × ProposalState) :=
  [ (StateDraft, TransitionStart, StateInProgress),
    (StateInProgress, TransitionSubmitForReview, StateInternalReview) ]
  ++ (specReviewStages.zip (specReviewStages.drop 1 ++ [StatePendingApproval])).map
      (fun e => (e.1, TransitionAdvanceReview, e.2))
  ++ (specReviewStages ++ [StatePendingApproval]).map
      (fun s => (s, TransitionRequestRevisions, StateRevisions))
  ++ [ (StateRevisions, TransitionSubmitForReview, StateInternalReview),
       (StatePendingApproval, TransitionApprove, StateApproved),
       (StatePendingApproval, TransitionReject, StateRejected),
       (StateApproved, TransitionSubmitToSponsor, StateReadyToSubmit),
       (StateReadyToSubmit, TransitionSubmitToSponsor, StateSubmitted),
       (StateSubmitted, TransitionAdvanceReview, StateUnderReview),
       (StateUnderReview, TransitionAward, StateAwarded),
       (StateUnderReview, TransitionNegotiate, StateNegotiation),
       (StateUnderReview, TransitionDecline, StateDeclined),
       (StateUnderReview, TransitionNotFund, StateNotFunded),
       (StateNegotiation, TransitionAward, StateAwarded),
       (StateNegotiation, TransitionDecline, StateDeclined),
       (StateAwarded, TransitionActivate, StateActive),
       (StateActive, TransitionCloseout, StateCloseout),
       (StateCloseout, TransitionClose, StateClosed),
       (StateRejected, TransitionReopen, StateDraft) ]
  ++ specWithdrawEligible.map (fun s => (s, TransitionWithdraw, StateWithdrawn))

end proposal

/-! ## Auxiliary readings of the table -/

namespace statemachine

/-- The table read `sm.transitions[from][transition]`, without the guards. -/
def StateMachine.edge? {S T W : Type} [DecidableEq S] [DecidableEq T]
    (sm : StateMachine S T W) (src : S) (transition : T) : Option S :=
  match sm.transitions.get? src with
  | some inner => inner.get? transition
  | none => none

end statemachine

namespace proposal

/-- The target that a list of registrations leaves for `(s, t)`: a later registration
of the same key overrides an earlier one. -/
def lastTarget : List (ProposalState × ProposalTransition × ProposalState) →
    ProposalState → ProposalTransition → Option ProposalState
  | [], _, _ => none
  | e :: rest, s, t =>
    match lastTarget rest s t with
    | some d => some d
    | none => if e.1 = s ∧ e.2.1 = t then some e.2.2 else none

end proposal

namespace statemachine

/-- One call of a registering method of the engine. The fields of the engine are private,
so every engine a client holds is `New` followed by such calls. -/
inductive Registration (S T W : Type) where
  | transition (src : S) (t : T) (dst : S)
  | guard (t : T) (g : S → S → Bool)
  | enter (state : S) (callback : S → W → W)
  | exit (state : S) (callback : S → W → W)

/-- The engine after one registering call. -/
def StateMachine.register {S T W : Type} [DecidableEq S] [DecidableEq T]
    (sm : StateMachine S T W) : Registration S T W → StateMachine S T W
  | .transition src t dst => sm.AddTransition src t dst
  | .guard t g => sm.AddGuard t g
  | .enter state callback => sm.OnEnter state callback
  | .exit state callback => sm.OnExit state callback

/-- The engine after a sequence of registering calls. -/
def StateMachine.registerAll {S T W : Type} [DecidableEq S] [DecidableEq T]
    (sm : StateMachine S T W) : List (Registration S T W) → StateMachine S T W
  | [] => sm
  | r :: rest => StateMachine.registerAll (sm.register r) rest

/-- The engine built by `New(initialState)` and a sequence of registering calls. -/
def StateMachine.build {S T W : Type} [DecidableEq S] [DecidableEq T]
    (initialState : S) (regs : List (Registration S T W)) : StateMachine S T W :=
  StateMachine.registerAll (StateMachine.New initialState) regs

/-- The guards that a sequence of calls registers for `t`, in registration order. -/
def guardsRegistered {S T W : Type} [DecidableEq T] (t : T) :
    List (Registration S T W) → List (S → S → Bool)
  | [] => []
  | .guard t' g :: rest =>
    if t' = t then g :: guardsRegistered t rest else guardsRegistered t rest
  | _ :: rest => guardsRegistered t rest

/-- The exit callbacks that a sequence of calls registers for `s`, in registration order. -/
def exitsRegistered {S T W : Type} [DecidableEq S] (s : S) :
    List (Registration S T W) → List (S → W → W)
  | [] => []
  | .exit s' callback :: rest =>
    if s' = s then callback :: exitsRegistered s rest else exitsRegistered s rest
  | _ :: rest => exitsRegistered s rest

/-- The enter callbacks that a sequence of calls registers for `s`, in registration order. -/
def entersRegistered {S T W : Type} [DecidableEq S] (s : S) :
    List (Registration S T W) → List (S → W → W)
  | [] => []
  | .enter s' callback :: rest =>
    if s' = s then callback :: entersRegistered s rest else entersRegistered s rest
  | _ :: rest => entersRegistered s rest

/-- The guard list `sm.guards[t]`; a missing entry is the empty list. -/
def StateMachine.guardsFor {S T W : Type} [DecidableEq T]
    (sm : StateMachine S T W) (t : T) : List (S → S → Bool) :=
  match sm.guards.get? t with
  | some gs => gs
  | none => []

/-- The callback list `sm.onExit[s]`; a missing entry is the empty list. -/
def StateMachine.exitsFor {S T W : Type} [DecidableEq S]
    (sm : StateMachine S T W) (s : S) : List (S → W → W) :=
  match sm.onExit.get? s with
  | some cbs => cbs
  | none => []

/-- The callback list `sm.onEnter[s]`; a missing entry is the empty list. -/
def StateMachine.entersFor {S T W : Type} [DecidableEq S]
    (sm : StateMachine S T W) (s : S) : List (S → W → W) :=
  match sm.onEnter.get? s with
  | some cbs => cbs
  | none => []

end statemachine

namespace proposal

open common

/-- The constants of type `ProposalState` that `states.go` declares, in source order. -/
def definedStates : List ProposalState :=
  [StateDraft, StateInProgress, StateInternalReview, StateDeptReview, StateOSPReview,
    StateCompliance, StateBudgetReview, StatePendingApproval, StateApproved, StateRejected,
    StateRevisions, StateReadyToSubmit, StateSubmitted, StateUnderReview, StateAwarded,
    StateNegotiation, StateDeclined, StateNotFunded, StateActive, StateCloseout, StateClosed,
    StateWithdrawn]

/-- The states from which the specification says `Withdraw` fails (section 8), and
`Withdrawn` itself. -/
def specWithdrawIneligible : List ProposalState :=
  [StateAwarded, StateActive, StateCloseout, StateClosed, StateDeclined, StateNotFunded,
    StateSubmitted, StateUnderReview, StateNegotiation, StateRejected, StateWithdrawn]

/-- One call of a mutating method of the aggregate, with its clock readings. -/
inductive Mutation where
  | TransitionTo (transition : ProposalTransition) (userID : UUID) (comment : String)
      (clock : Clock)
  | Update (userID : UUID) (updates : ProposalUpdates) (now : Time)
  | AddCoInvestigator (userID coiID : UUID) (now : Time)
  | RemoveCoInvestigator (userID coiID : UUID) (now : Time)
  | AddKeyPerson (userID : UUID) (keyPerson : KeyPerson) (now : Time)
  | AddAttachment (userID : UUID) (attachment : Attachment) (newID : UUID)
      (uploadedAt : Time) (now : Time)

/-- The aggregate and the returned error after one mutating call. -/
def Proposal.mutate (p : Proposal) : Mutation → Proposal × Option Error
  | .TransitionTo transition userID comment clock =>
    p.TransitionTo transition userID comment clock
  | .Update userID updates now => p.Update userID updates now
  | .AddCoInvestigator userID coiID now => p.AddCoInvestigator userID coiID now
  | .RemoveCoInvestigator userID coiID now => p.RemoveCoInvestigator userID coiID now
  | .AddKeyPerson userID keyPerson now => p.AddKeyPerson userID keyPerson now
  | .AddAttachment userID attachment newID uploadedAt now =>
    p.AddAttachment userID attachment newID uploadedAt now

/-- Whether a mutating call is a call of `TransitionTo`. -/
def Mutation.isTransitionTo : Mutation → Bool
  | .TransitionTo _ _ _ _ => true
  | _ => false

/-- The aggregate after a sequence of mutating calls, whatever each of them returned. -/
def Proposal.mutateAll (p : Proposal) : List Mutation → Proposal
  | [] => p
  | m :: rest => Proposal.mutateAll (p.mutate m).1 rest

end proposal

namespace proposal

open common

/-- Whether the map literal of `GetStateMetadata` has an entry for the state. -/
def hasMetadataEntry (state : ProposalState) : Bool :=
  GetStateMetadata.metadata.any (fun e => decide (e.1 = state))

/-- The record `GetStateMetadata` returns for a state without an entry. -/
def fallbackMetadata (state : ProposalState) : StateMetadata :=
  { State := state, DisplayName := state, Description := "Unknown state",
    RequiredRoles := [], NotificationList := [], SLAHours := 0 }

/-- The nine states named as having no explicit metadata entry. -/
def specUncovered : List ProposalState :=
  [StateRejected, StateRevisions, StateReadyToSubmit, StateUnderReview, StateNegotiation,
    StateDeclined, StateNotFunded, StateCloseout, StateWithdrawn]

/-- The states named as reachable once a proposal has been submitted. -/
def postSubmission : List ProposalState :=
  [StateSubmitted, StateUnderReview, StateNegotiation, StateAwarded, StateDeclined,
    StateNotFunded, StateActive, StateCloseout, StateClosed]

end proposal

/-! ## Sample data for the concrete instances -/

namespace proposal

open common

/-- A freshly created proposal: tenant 1, creator 2, principal investigator 3, sponsor 4. -/
def sampleProposal : Proposal :=
  NewProposal 1 2 "Soil microbiome survey" 3 4 "Biology"
    { StartDate := 100, EndDate := 200 }
    { entityID := 5, createdAt := 10, year := 2026, eventID := 6, occurredAt := 10 }

/-- Clock readings for one transition. -/
def sampleClock : Clock :=
  { performedAt := 20, touchedAt := 21, eventID := 8, occurredAt := 22 }

/-- A repository that holds `sampleProposal` under every key and accepts every save. -/
def sampleRepo : Repository :=
  { Save := fun _ => none
    FindByID := fun _ _ => .ok (some sampleProposal) }

/-- An actor of tenant 1 who is not the principal investigator and holds no role. -/
def outsider : TenantContext := { TenantID := 1, UserID := 9, Roles := [] }

/-- The principal investigator of `sampleProposal`, holding the role `PI`. -/
def investigator : TenantContext := { TenantID := 1, UserID := 3, Roles := ["PI"] }

/-- An update that sets no field. -/
def noUpdates : ProposalUpdates :=
  { Title := none, ShortTitle := none, Abstract := none, ResearchArea := none,
    Keywords := none, SponsorDeadline := none, InternalDeadline := none,
    IRBRequired := none, IACUCRequired := none, IBCRequired := none,
    ExportControl := none, ConflictOfInterest := none }

/-- A key person. -/
def sampleKeyPerson : KeyPerson :=
  { PersonID := 11, Role := "Postdoc", Effort := 0, CalendarMonths := 0,
    AcademicMonths := 0, SummerMonths := 0 }

/-- An attachment as a caller hands it in. -/
def sampleAttachment : Attachment :=
  { ID := 0, FileName := "narrative.pdf", FileType := "application/pdf",
    FileSizeBytes := 1024, StoragePath := "/files/narrative.pdf", UploadedBy := 0,
    UploadedAt := 0, Category := "narrative" }

/-- `sampleProposal` after it has reached Submitted. -/
def submittedProposal : Proposal := { sampleProposal with State := StateSubmitted }

/-- The sample proposal with the largest version a Go `int` can hold. -/
def maxVersionProposal : Proposal := { sampleProposal with Version := 2 ^ 63 - 1 }

/-- The field update without any field, called `2^63 - 1` times in a row. -/
def manyUpdates : List Mutation := List.replicate (2 ^ 63 - 1) (Mutation.Update 3 noUpdates 30)

/-- One call of `TransitionTo`: its arguments and its clock readings. -/
structure TransitionCall where
  transition : ProposalTransition
  userID : UUID
  comment : String
  clock : Clock

/-- Successive calls of `TransitionTo` on one aggregate, stopping at the first error. -/
def applyTransitions (p : Proposal) : List TransitionCall → Proposal × Option Error
  | [] => (p, none)
  | c :: cs =>
    match (p.TransitionTo c.transition c.userID c.comment c.clock).2 with
    | some err => ((p.TransitionTo c.transition c.userID c.comment c.clock).1, some err)
    | none => applyTransitions (p.TransitionTo c.transition c.userID c.comment c.clock).1 cs

/-- Whether a list of edges is a walk in the source's table that starts at `s`. -/
def isWalk : ProposalState → List (ProposalState × ProposalTransition × ProposalState) → Bool
  | _, [] => true
  | s, e :: rest =>
    decide (e.1 = s) && decide (e ∈ NewProposalStateMachine.transitions) && isWalk e.2.2 rest

/-- What an audit-trail entry says about the graph: source, label, target. -/
def StateTransition.edge (h : StateTransition) :
    ProposalState × ProposalTransition × ProposalState :=
  (h.FromState, h.Transition, h.ToState)

/-- The transitions of the full lifecycle, as the specification lists them (section 8). -/
def lifecyclePath : List ProposalTransition :=
  [TransitionStart, TransitionSubmitForReview, TransitionAdvanceReview,
    TransitionAdvanceReview, TransitionAdvanceReview, TransitionAdvanceReview,
    TransitionAdvanceReview, TransitionApprove, TransitionSubmitToSponsor,
    TransitionSubmitToSponsor, TransitionAdvanceReview, TransitionAward,
    TransitionActivate, TransitionCloseout, TransitionClose]

/-- The edges of the full lifecycle, as the specification lists them (section 8). -/
def lifecycleEdges : List (ProposalState × ProposalTransition × ProposalState) :=
  [ (StateDraft, TransitionStart, StateInProgress),
    (StateInProgress, TransitionSubmitForReview, StateInternalReview),
    (StateInternalReview, TransitionAdvanceReview, StateDeptReview),
    (StateDeptReview, TransitionAdvanceReview, StateOSPReview),
    (StateOSPReview, TransitionAdvanceReview, StateCompliance),
    (StateCompliance, TransitionAdvanceReview, StateBudgetReview),
    (StateBudgetReview, TransitionAdvanceReview, StatePendingApproval),
    (StatePendingApproval, TransitionApprove, StateApproved),
    (StateApproved, TransitionSubmitToSponsor, StateReadyToSubmit),
    (StateReadyToSubmit, TransitionSubmitToSponsor, StateSubmitted),
    (StateSubmitted, TransitionAdvanceReview, StateUnderReview),
    (StateUnderReview, TransitionAward, StateAwarded),
    (StateAwarded, TransitionActivate, StateActive),
    (StateActive, TransitionCloseout, StateCloseout),
    (StateCloseout, TransitionClose, StateClosed) ]

/-- The lifecycle calls, all by the principal investigator of `sampleProposal`. -/
def sampleCalls : List TransitionCall :=
  lifecyclePath.map (fun t => { transition := t, userID := 3, comment := "", clock := sampleClock })

/-- The domain service over `sampleRepo`, without event store and publisher. -/
def sampleService : Service := { repo := sampleRepo, eventStore := none, publisher := none }

/-- A request for `transition` on the stored proposal, without a version expectation. -/
def sampleInput (transition : ProposalTransition) : TransitionProposalInput :=
  { ProposalID := 5, Transition := transition, Comment := "", ExpectedVersion := 0 }

/-- The principal investigator of `sampleProposal`, holding no role at all. -/
def piWithoutRoles : TenantContext := { TenantID := 1, UserID := 3, Roles := [] }

/-- An event store that rejects every append. -/
def failingEventStore : EventStore :=
  { Append := fun _ => some (Error.new "event store unavailable") }

/-- The domain service over `sampleRepo` with the failing event store. -/
def storeFailingService : Service :=
  { repo := sampleRepo, eventStore := some failingEventStore, publisher := none }

end proposal

namespace appproposal

open common proposal

/-- The application service over `sampleRepo`. -/
def sampleService : Service := { repo := sampleRepo }

/-- A command for `transition` on the stored proposal, without a version expectation. -/
def sampleCommand (transition : ProposalTransition) : TransitionCommand :=
  { ProposalID := 5, Transition := transition, Comment := "", ExpectedVersion := 0 }

end appproposal

namespace statemachine

/-- Registrations of a small engine over strings whose callbacks write to a log: two
edges labelled `go`, two exit callbacks on `A`, two enter callbacks on `B`, one enter
callback on `A`, a guard on `go` that rejects the source `C`, and a guard on `stop` that
rejects everything. -/
def loggingRegistrations : List (Registration String String (List String)) :=
  [ .transition "A" "go" "B",
    .transition "C" "go" "D",
    .exit "A" (fun dst log => log ++ ["exit-1 to " ++ dst]),
    .enter "B" (fun src log => log ++ ["enter-1 from " ++ src]),
    .enter "A" (fun src log => log ++ ["enter-A from " ++ src]),
    .exit "A" (fun dst log => log ++ ["exit-2 to " ++ dst]),
    .enter "B" (fun src log => log ++ ["enter-2 from " ++ src]),
    .guard "go" (fun src _ => decide (src ≠ "C")),
    .guard "stop" (fun _ _ => false) ]

/-- The engine built from `loggingRegistrations`. -/
def loggingEngine : StateMachine String String (List String) :=
  StateMachine.build "A" loggingRegistrations

end statemachine

namespace proposal

/-- The audit-trail chain property of a history `history` that started in state `start`
and whose aggregate is now in state `current`. -/
def auditTrailOK (start : ProposalState) (history : List StateTransition)
    (current : ProposalState) : Prop :=
  (∀ h ∈ history.head?, h.FromState = start) ∧
    history.Chain' (fun a b => a.ToState = b.FromState) ∧
    (∀ h ∈ history.getLast?, h.ToState = current) ∧
    (∀ h ∈ history, h.edge ∈ NewProposalStateMachine.transitions) ∧
    (history = [] → current = start)

end proposal

/-! ## Sample data for the persistence and cache instances -/

namespace postgres

open common proposal

/-- The table holding `sampleProposal` as it was created, at version 1. -/
def storedRows : Table := (GoMap.make : Table).set sampleProposal.ID sampleProposal

/-- The table after another writer has moved the stored row on to version 2. -/
def movedRows : Table :=
  (GoMap.make : Table).set sampleProposal.ID { sampleProposal with Version := 2 }

/-- The aggregate loaded from `storedRows` after one successful `TransitionTo`. -/
def startedProposal : Proposal :=
  (sampleProposal.TransitionTo TransitionStart 3 "" sampleClock).1

end postgres

namespace ruvector

/-- A cache of capacity 2 after `Set("a")` and then `Set("b")`. -/
def twoEntryCache : EmbeddingCache := ((NewEmbeddingCache 2).Set "a" []).Set "b" []

end ruvector

/-! # Theorems -/

/-! ## Facts about Go maps -/

namespace GoMap

variable {K V : Type} [DecidableEq K]

theorem get?_make (k : K) : (make : GoMap K V).get? k = none := rfl

theorem get?_set_self (m : GoMap K V) (k : K) (v : V) : (m.set k v).get? k = some v := by
  simp [get?, set]

theorem get?_set_ne (m : GoMap K V) (k k' : K) (v : V) (h : k' ≠ k) :
    (m.set k v).get? k' = m.get? k' := by
  have hk : ¬ k = k' := fun e => h e.symm
  simp only [get?, set, List.find?_cons, hk, decide_False]
  congr 1
  rw [List.find?_filter]
  congr 1
  funext a
  by_cases ha : a.1 = k'
  · simp [ha, h]
  · simp [ha]

theorem mem_entries_iff (m : GoMap K V) (k : K) (v : V) :
    (k, v) ∈ m.entries ↔ m.get? k = some v := by
  obtain ⟨es, nd⟩ := m
  simp only [get?]
  induction es with
  | nil => simp
  | cons e es ih =>
    obtain ⟨a, b⟩ := e
    rw [List.map_cons, List.nodup_cons] at nd
    by_cases ha : a = k
    · subst ha
      have hnot : (a, v) ∉ es := fun hm => nd.1 (List.mem_map.2 ⟨(a, v), hm, rfl⟩)
      simp [List.find?_cons, hnot, eq_comm]
    · have hk : ¬ k = a := fun e => ha e.symm
      simp [List.find?_cons, ha, hk, ih nd.2]

end GoMap

/-! ## The engine -/

namespace statemachine

namespace StateMachine

variable {S T W : Type} [DecidableEq S] [DecidableEq T]

theorem CanTransition_eq_true_iff (sm : StateMachine S T W) (s : S) (t : T) :
    sm.CanTransition s t = true ↔ ∃ next, sm.GetNextState s t = .ok next := by
  unfold CanTransition GetNextState
  cases sm.transitions.get? s with
  | none => simp
  | some inner =>
    cases h2 : inner.get? t with
    | none => simp [h2]
    | some dst => cases h : sm.guardsAllow s t dst <;> simp [h2, h]

/-- C7. For every engine, state and transition, `CanTransition` answers true exactly
when `GetNextState` returns a state and no error. -/
theorem CanTransition_iff_GetNextState_ok (sm : StateMachine S T W) (s : S) (t : T) :
    sm.CanTransition s t = true ↔ ∃ next, sm.GetNextState s t = .ok next :=
  CanTransition_eq_true_iff sm s t

theorem mem_GetAvailableTransitions (sm : StateMachine S T W) (s : S) (t : T) :
    t ∈ sm.GetAvailableTransitions s ↔ sm.CanTransition s t = true := by
  unfold GetAvailableTransitions CanTransition
  cases sm.transitions.get? s with
  | none => simp
  | some inner =>
    simp only [List.mem_map, List.mem_filter]
    constructor
    · rintro ⟨⟨t', dst⟩, ⟨hmem, hg⟩, rfl⟩
      rw [(GoMap.mem_entries_iff inner _ dst).1 hmem]
      exact hg
    · intro h
      cases hget : inner.get? t with
      | none => rw [hget] at h; exact absurd h (by simp)
      | some dst =>
        rw [hget] at h
        exact ⟨(t, dst), ⟨(GoMap.mem_entries_iff inner t dst).2 hget, h⟩, rfl⟩

theorem nodup_GetAvailableTransitions (sm : StateMachine S T W) (s : S) :
    (sm.GetAvailableTransitions s).Nodup := by
  unfold GetAvailableTransitions
  cases sm.transitions.get? s with
  | none => exact List.nodup_nil
  | some inner =>
    exact ((List.filter_sublist inner.entries).map Prod.fst).nodup inner.nodupKeys

/-- C8. For every engine and state, the listing `GetAvailableTransitions` has no
duplicates and its members are exactly the transitions that `CanTransition` accepts. -/
theorem GetAvailableTransitions_exact (sm : StateMachine S T W) (s : S) :
    (sm.GetAvailableTransitions s).Nodup ∧
      ∀ t, t ∈ sm.GetAvailableTransitions s ↔ sm.CanTransition s t = true :=
  ⟨nodup_GetAvailableTransitions sm s, fun t => mem_GetAvailableTransitions sm s t⟩

end StateMachine

end statemachine

/-! ## The workflow table -/

namespace statemachine

namespace StateMachine

variable {S T W : Type} [DecidableEq S] [DecidableEq T]

theorem edge?_AddTransition (sm : StateMachine S T W) (a : S) (b : T) (c : S) (s : S) (t : T) :
    (sm.AddTransition a b c).edge? s t = if a = s ∧ b = t then some c else sm.edge? s t := by
  unfold edge? AddTransition
  by_cases hs : a = s
  · subst hs
    simp only [GoMap.get?_set_self, true_and]
    by_cases ht : b = t
    · subst ht
      simp [GoMap.get?_set_self]
    · have ht' : t ≠ b := fun e => ht e.symm
      rw [GoMap.get?_set_ne _ _ _ _ ht', if_neg ht]
      cases sm.transitions.get? a with
      | none => rfl
      | some inner => rfl
  · have hs' : s ≠ a := fun e => hs e.symm
    simp only [GoMap.get?_set_ne _ _ _ _ hs', hs, false_and, if_false]

theorem guards_AddTransition (sm : StateMachine S T W) (a : S) (b : T) (c : S) :
    (sm.AddTransition a b c).guards = sm.guards := rfl

theorem GetNextState_of_no_guards (sm : StateMachine S T W) (h : sm.guards = GoMap.make)
    (s : S) (t : T) :
    sm.GetNextState s t =
      match sm.edge? s t with
      | some d => .ok d
      | none => .error Error.statemachineErrInvalidTransition := by
  unfold GetNextState edge? guardsAllow
  rw [h]
  cases sm.transitions.get? s with
  | none => rfl
  | some inner =>
    cases h2 : inner.get? t with
    | none => simp [h2]
    | some d => simp [h2, GoMap.get?_make]

end StateMachine

end statemachine

namespace proposal

open common statemachine

theorem edge?_addAll (l : List (ProposalState × ProposalTransition × ProposalState))
    (sm : ProposalStateMachine) (s : ProposalState) (t : ProposalTransition) :
    (addAll sm l).edge? s t =
      match lastTarget l s t with
      | some d => some d
      | none => sm.edge? s t := by
  induction l generalizing sm with
  | nil => rfl
  | cons e rest ih =>
    rw [addAll, ih, lastTarget, StateMachine.edge?_AddTransition]
    cases lastTarget rest s t with
    | some d => rfl
    | none =>
      by_cases h : e.1 = s ∧ e.2.1 = t
      · simp [h]
      · simp [h]

theorem guards_addAll (l : List (ProposalState × ProposalTransition × ProposalState))
    (sm : ProposalStateMachine) : (addAll sm l).guards = sm.guards := by
  induction l generalizing sm with
  | nil => rfl
  | cons e rest ih => rw [addAll, ih, StateMachine.guards_AddTransition]

theorem lastTarget_eq_some_iff (l : List (ProposalState × ProposalTransition × ProposalState))
    (hl : (l.map (fun e => (e.1, e.2.1))).Nodup) (s : ProposalState) (t : ProposalTransition)
    (d : ProposalState) : lastTarget l s t = some d ↔ (s, t, d) ∈ l := by
  induction l generalizing d with
  | nil => simp [lastTarget]
  | cons e rest ih =>
    obtain ⟨a, b, c⟩ := e
    rw [List.map_cons, List.nodup_cons] at hl
    have hkey : ∀ x, (a, b, x) ∉ rest := fun x hx =>
      hl.1 (List.mem_map.2 ⟨(a, b, x), hx, rfl⟩)
    rw [lastTarget, List.mem_cons]
    cases hr : lastTarget rest s t with
    | some d' =>
      have hmem : (s, t, d') ∈ rest := (ih hl.2 d').1 hr
      constructor
      · intro h
        have hd : d' = d := Option.some.inj h
        exact Or.inr (hd ▸ hmem)
      · rintro (h | h)
        · have h1 : s = a := congrArg Prod.fst h
          have h2 : t = b := congrArg (fun x => x.2.1) h
          subst h1 h2
          exact absurd hmem (hkey d')
        · have := (ih hl.2 d).2 h
          rw [hr] at this
          exact this
    | none =>
      have hno : (s, t, d) ∉ rest := fun h => by
        have := (ih hl.2 d).2 h
        rw [hr] at this
        exact absurd this (by simp)
      by_cases h : a = s ∧ b = t
      · obtain ⟨h1, h2⟩ := h
        subst h1 h2
        simp [hno, eq_comm]
      · have hne : ¬ (s, t, d) = (a, b, c) := fun e =>
          h ⟨(congrArg Prod.fst e).symm, (congrArg (fun x => x.2.1) e).symm⟩
        simp [h, hno, hne]

theorem transitions_keys_nodup :
    (NewProposalStateMachine.transitions.map (fun e => (e.1, e.2.1))).Nodup := by
  decide

theorem transitions_mem_iff_specEdges :
    (∀ e ∈ NewProposalStateMachine.transitions, e ∈ specEdges) ∧
      (∀ e ∈ specEdges, e ∈ NewProposalStateMachine.transitions) := by
  decide

theorem NewProposalStateMachine_guards : NewProposalStateMachine.guards = GoMap.make := by
  unfold NewProposalStateMachine
  rw [guards_addAll]
  rfl

theorem NewProposalStateMachine_edge? (s : ProposalState) (t : ProposalTransition) :
    NewProposalStateMachine.edge? s t = lastTarget NewProposalStateMachine.transitions s t := by
  unfold NewProposalStateMachine
  rw [edge?_addAll]
  cases lastTarget NewProposalStateMachine.transitions s t with
  | some d => rfl
  | none => rfl

theorem GetNextState_eq_ok_iff (s : ProposalState) (t : ProposalTransition) (d : ProposalState) :
    NewProposalStateMachine.GetNextState s t = .ok d ↔
      (s, t, d) ∈ NewProposalStateMachine.transitions := by
  rw [StateMachine.GetNextState_of_no_guards _ NewProposalStateMachine_guards,
    NewProposalStateMachine_edge?, ← lastTarget_eq_some_iff _ transitions_keys_nodup]
  cases lastTarget NewProposalStateMachine.transitions s t with
  | some d' => simp
  | none => simp

theorem GetNextState_eq_error (s : ProposalState) (t : ProposalTransition)
    (h : ∀ d, (s, t, d) ∉ NewProposalStateMachine.transitions) :
    NewProposalStateMachine.GetNextState s t = .error Error.statemachineErrInvalidTransition := by
  rw [StateMachine.GetNextState_of_no_guards _ NewProposalStateMachine_guards,
    NewProposalStateMachine_edge?]
  cases hl : lastTarget NewProposalStateMachine.transitions s t with
  | some d' => exact absurd ((lastTarget_eq_some_iff _ transitions_keys_nodup s t d').1 hl) (h d')
  | none => rfl

/-- C9. The table built by `NewProposalStateMachine` is the graph the specification
enumerates and nothing else: `GetNextState(s, t)` returns `d` without error exactly when
`(s, t, d)` is one of the specified edges, and for every pair `(s, t)` that is not the
source and label of a specified edge it fails with the engine's invalid-transition error. -/
theorem NewProposalStateMachine_is_specified_graph (s : ProposalState)
    (t : ProposalTransition) :
    (∀ d, NewProposalStateMachine.GetNextState s t = .ok d ↔ (s, t, d) ∈ specEdges) ∧
      ((∀ e ∈ specEdges, ¬ (e.1 = s ∧ e.2.1 = t)) →
        NewProposalStateMachine.GetNextState s t =
          .error Error.statemachineErrInvalidTransition) := by
  have hiff : ∀ e, e ∈ NewProposalStateMachine.transitions ↔ e ∈ specEdges := fun e =>
    ⟨transitions_mem_iff_specEdges.1 e, transitions_mem_iff_specEdges.2 e⟩
  refine ⟨fun d => (GetNextState_eq_ok_iff s t d).trans (hiff _), fun h => ?_⟩
  exact GetNextState_eq_error s t (fun d hd => h _ ((hiff _).1 hd) ⟨rfl, rfl⟩)

/-- Witness for C9: from Rejected, `Reopen` leads to Draft and `Withdraw` has no edge. -/
theorem NewProposalStateMachine_is_specified_graph_witness :
    (NewProposalStateMachine.GetNextState StateRejected TransitionReopen = .ok StateDraft ↔
        (StateRejected, TransitionReopen, StateDraft) ∈ specEdges) ∧
      (∀ e ∈ specEdges, ¬ (e.1 = StateRejected ∧ e.2.1 = TransitionWithdraw)) ∧
      NewProposalStateMachine.GetNextState StateRejected TransitionWithdraw =
        .error Error.statemachineErrInvalidTransition :=
  ⟨(NewProposalStateMachine_is_specified_graph StateRejected TransitionReopen).1 StateDraft,
    by decide,
    (NewProposalStateMachine_is_specified_graph StateRejected TransitionWithdraw).2
      (by decide)⟩

/-! ## The aggregate -/

theorem wrapInt64_of_inRange (n : Int) (hlo : -2 ^ 63 ≤ n) (hhi : n < 2 ^ 63) :
    wrapInt64 n = n := by
  unfold wrapInt64
  omega

theorem wrapInt64_inRange (n : Int) : -2 ^ 63 ≤ wrapInt64 n ∧ wrapInt64 n < 2 ^ 63 := by
  unfold wrapInt64
  omega

theorem wrapInt64_succ (n k : Int) :
    wrapInt64 (wrapInt64 (n + 1) + k) = wrapInt64 (n + (k + 1)) := by
  unfold wrapInt64
  omega

theorem TransitionTo_of_ok (p : Proposal) (t : ProposalTransition) (userID : UUID)
    (comment : String) (clock : Clock) (next : ProposalState)
    (h : NewProposalStateMachine.GetNextState p.State t = .ok next) :
    (p.TransitionTo t userID comment clock).2 = none ∧
      (p.TransitionTo t userID comment clock).1.State = next ∧
      (p.TransitionTo t userID comment clock).1.Version = wrapInt64 (p.Version + 1) ∧
      (p.TransitionTo t userID comment clock).1.StateHistory =
        p.StateHistory ++
          [{ FromState := p.State, ToState := next, Transition := t, PerformedBy := userID,
             PerformedAt := clock.performedAt, Comment := comment }] ∧
      (p.TransitionTo t userID comment clock).1.UpdatedBy = userID ∧
      (p.TransitionTo t userID comment clock).1.PrincipalInvestigatorID =
        p.PrincipalInvestigatorID := by
  have hcan : NewProposalStateMachine.CanTransition p.State t = true :=
    (StateMachine.CanTransition_eq_true_iff _ _ _).2 ⟨next, h⟩
  unfold Proposal.TransitionTo
  simp only [hcan, h, not_true_eq_false, if_false]
  refine ⟨?_, ?_, ?_, ?_, ?_, ?_⟩ <;> first | rfl | trivial

theorem TransitionTo_of_error (p : Proposal) (t : ProposalTransition) (userID : UUID)
    (comment : String) (clock : Clock) (err : Error)
    (h : NewProposalStateMachine.GetNextState p.State t = .error err) :
    p.TransitionTo t userID comment clock = (p, some Error.ErrInvalidTransition) := by
  have hcan : NewProposalStateMachine.CanTransition p.State t = false := by
    cases hc : NewProposalStateMachine.CanTransition p.State t with
    | false => rfl
    | true =>
      obtain ⟨next, hn⟩ := (StateMachine.CanTransition_eq_true_iff _ _ _).1 hc
      rw [h] at hn
      exact absurd hn (by simp)
  unfold Proposal.TransitionTo
  simp [hcan]

/-- C1, as amended. When `TransitionTo(t, user, comment)` returns no error on a proposal
in state `s` with history `h` and a version `v` below the largest Go `int`, `2^63 - 1`,
the new state is the workflow's target for `(s, t)`, the version is `v + 1`, the history
is `h` followed by exactly one entry recording `s`, the new state, `t`, `user` and
`comment` (so the earlier entries are unchanged), and `UpdatedBy` is `user`. -/
theorem TransitionTo_commit (p : Proposal) (t : ProposalTransition) (userID : UUID)
    (comment : String) (clock : Clock)
    (h : (p.TransitionTo t userID comment clock).2 = none)
    (hlo : -2 ^ 63 ≤ p.Version) (hhi : p.Version < 2 ^ 63 - 1) :
    NewProposalStateMachine.GetNextState p.State t =
        .ok (p.TransitionTo t userID comment clock).1.State ∧
      (p.TransitionTo t userID comment clock).1.Version = p.Version + 1 ∧
      (p.TransitionTo t userID comment clock).1.StateHistory =
        p.StateHistory ++
          [{ FromState := p.State
             ToState := (p.TransitionTo t userID comment clock).1.State
             Transition := t
             PerformedBy := userID
             PerformedAt := clock.performedAt
             Comment := comment }] ∧
      (p.TransitionTo t userID comment clock).1.UpdatedBy = userID := by
  cases hn : NewProposalStateMachine.GetNextState p.State t with
  | error err =>
    rw [TransitionTo_of_error p t userID comment clock err hn] at h
    exact absurd h (by simp)
  | ok next =>
    obtain ⟨_, h1, h2, h3, h4, _⟩ := TransitionTo_of_ok p t userID comment clock next hn
    rw [wrapInt64_of_inRange (p.Version + 1) (by omega) (by omega)] at h2
    rw [h1]
    exact ⟨rfl, h2, h3, h4⟩

/-- Witness for C1 as amended: `Start` on a fresh proposal, whose version is 1. -/
theorem TransitionTo_commit_witness :
    (sampleProposal.TransitionTo TransitionStart 3 "begin" sampleClock).2 = none ∧
      -2 ^ 63 ≤ sampleProposal.Version ∧ sampleProposal.Version < 2 ^ 63 - 1 ∧
      (sampleProposal.TransitionTo TransitionStart 3 "begin" sampleClock).1.Version = 1 + 1 ∧
      (sampleProposal.TransitionTo TransitionStart 3 "begin" sampleClock).1.UpdatedBy = 3 :=
  ⟨by rfl, by decide, by decide,
    (TransitionTo_commit sampleProposal TransitionStart 3 "begin" sampleClock (by rfl)
      (by decide) (by decide)).2.1,
    (TransitionTo_commit sampleProposal TransitionStart 3 "begin" sampleClock (by rfl)
      (by decide) (by decide)).2.2.2⟩

/-- Counterexample to C1 as stated: on a proposal in Draft whose version is the largest
Go `int`, `2^63 - 1`, the transition `Start` succeeds and the increment wraps around: the
version afterwards is `-2^63`, which is not `v + 1`. -/
theorem TransitionTo_wraps_at_largest_version :
    maxVersionProposal.State = StateDraft ∧ maxVersionProposal.Version = 2 ^ 63 - 1 ∧
      (maxVersionProposal.TransitionTo TransitionStart 3 "begin" sampleClock).2 = none ∧
      (maxVersionProposal.TransitionTo TransitionStart 3 "begin" sampleClock).1.Version =
        -2 ^ 63 ∧
      (maxVersionProposal.TransitionTo TransitionStart 3 "begin" sampleClock).1.Version ≠
        maxVersionProposal.Version + 1 := by
  have hv : (maxVersionProposal.TransitionTo TransitionStart 3 "begin" sampleClock).1.Version =
      -2 ^ 63 := by rfl
  have hm : maxVersionProposal.Version = 2 ^ 63 - 1 := by rfl
  refine ⟨by rfl, hm, by rfl, hv, ?_⟩
  rw [hv, hm]
  decide

theorem TransitionTo_unchanged_of_error (p : Proposal) (t : ProposalTransition) (userID : UUID)
    (comment : String) (clock : Clock)
    (h : (p.TransitionTo t userID comment clock).2 ≠ none) :
    (p.TransitionTo t userID comment clock).1 = p := by
  cases hn : NewProposalStateMachine.GetNextState p.State t with
  | error err => rw [TransitionTo_of_error p t userID comment clock err hn]
  | ok next => exact absurd (TransitionTo_of_ok p t userID comment clock next hn).1 h

theorem TransitionTo_error_eq (p : Proposal) (t : ProposalTransition) (userID : UUID)
    (comment : String) (clock : Clock) (err : Error)
    (h : (p.TransitionTo t userID comment clock).2 = some err) :
    err = Error.ErrInvalidTransition := by
  cases hn : NewProposalStateMachine.GetNextState p.State t with
  | error e =>
    rw [TransitionTo_of_error p t userID comment clock e hn] at h
    exact (Option.some.inj h).symm
  | ok next =>
    rw [(TransitionTo_of_ok p t userID comment clock next hn).1] at h
    exact absurd h (by simp)

/-- The outcome of the domain service on a proposal that the repository finds. -/
theorem TransitionProposal_found (s : Service) (tenantCtx : TenantContext)
    (input : TransitionProposalInput) (clock : Clock) (p : Proposal)
    (hfind : s.repo.FindByID tenantCtx.TenantID input.ProposalID = .ok (some p)) :
    s.TransitionProposal tenantCtx input clock =
      if input.ExpectedVersion > 0 ∧ p.Version ≠ input.ExpectedVersion then
        ⟨some p, .error Error.ErrVersionMismatch⟩
      else if s.canPerformTransition tenantCtx p input.Transition = false then
        ⟨some p, .error Error.ErrUnauthorized⟩
      else
        match (p.TransitionTo input.Transition tenantCtx.UserID input.Comment clock).2 with
        | some err =>
          ⟨some (p.TransitionTo input.Transition tenantCtx.UserID input.Comment clock).1,
            .error err⟩
        | none =>
          match s.repo.Save
              (p.TransitionTo input.Transition tenantCtx.UserID input.Comment clock).1 with
          | some err =>
            ⟨some (p.TransitionTo input.Transition tenantCtx.UserID input.Comment clock).1,
              .error (Error.wrap "failed to save proposal" err)⟩
          | none =>
            match (match s.eventStore with
                | some eventStore =>
                  eventStore.Append
                    (p.TransitionTo input.Transition tenantCtx.UserID input.Comment
                      clock).1.GetUncommittedEvents
                | none => none) with
            | some err =>
              ⟨some (p.TransitionTo input.Transition tenantCtx.UserID input.Comment clock).1,
                .error (Error.wrap "failed to append events" err)⟩
            | none =>
              ⟨some (p.TransitionTo input.Transition tenantCtx.UserID input.Comment
                  clock).1.ClearUncommittedEvents,
                .ok (p.TransitionTo input.Transition tenantCtx.UserID input.Comment
                  clock).1.ClearUncommittedEvents⟩ := by
  unfold Service.TransitionProposal Service.GetProposal
  rw [hfind]
  simp only []
  by_cases h1 : input.ExpectedVersion > 0 ∧ p.Version ≠ input.ExpectedVersion
  · rw [if_pos h1, if_pos h1]
  · rw [if_neg h1, if_neg h1]
    cases h2 : s.canPerformTransition tenantCtx p input.Transition with
    | false => simp
    | true =>
      simp only [not_true_eq_false, if_false, Bool.true_eq_false]
      generalize p.TransitionTo input.Transition tenantCtx.UserID input.Comment clock = r
      obtain ⟨p', _ | err⟩ := r
      · rfl
      · rfl

theorem any_HasRole_iff (tenantCtx : TenantContext) (roles : List String) :
    roles.any (fun requiredRole => tenantCtx.HasRole requiredRole) = true ↔
      ∃ role ∈ roles, role ∈ tenantCtx.Roles := by
  simp [TenantContext.HasRole]

/-- C4. `canPerformTransition` answers true exactly when (a) some required role of the
current state's metadata is among the actor's roles, or (b) the transition is `Withdraw`
and the actor is the proposal's principal investigator. The proposal enters the decision
only through its current state and its principal investigator: replacing every other
field (there is no target state among the inputs) leaves the answer unchanged. -/
theorem canPerformTransition_iff (s : Service) (tenantCtx : TenantContext) (p : Proposal)
    (t : ProposalTransition) :
    (s.canPerformTransition tenantCtx p t = true ↔
        (∃ role ∈ (GetStateMetadata p.State).RequiredRoles, role ∈ tenantCtx.Roles) ∨
          (t = TransitionWithdraw ∧ tenantCtx.UserID = p.PrincipalInvestigatorID)) ∧
      ∀ (s' : Service) (q : Proposal),
        s'.canPerformTransition tenantCtx
            { q with State := p.State, PrincipalInvestigatorID := p.PrincipalInvestigatorID } t =
          s.canPerformTransition tenantCtx p t := by
  refine ⟨?_, fun _ _ => rfl⟩
  unfold Service.canPerformTransition
  simp only []
  rw [← any_HasRole_iff]
  by_cases h1 : (GetStateMetadata p.State).RequiredRoles.any
      (fun requiredRole => tenantCtx.HasRole requiredRole) = true
  · simp [h1]
  · by_cases h2 : t = TransitionWithdraw ∧ p.PrincipalInvestigatorID = tenantCtx.UserID
    · simp [h1, h2]
    · have h3 : ¬ (t = TransitionWithdraw ∧ tenantCtx.UserID = p.PrincipalInvestigatorID) :=
        fun h => h2 ⟨h.1, h.2.symm⟩
      simp only [h1, h2, h3, if_false, or_self]
      simp

/-- C2. A failed transition mutates nothing. Whenever `TransitionTo` returns an error the
aggregate is the one it was called on; and whenever `TransitionProposal`, having loaded
the proposal `p`, fails with the version-mismatch, unauthorized or invalid-transition
error, the loaded aggregate is still `p` (state, version, history, `UpdatedBy` and
uncommitted events included). -/
theorem failed_transition_mutates_nothing (p : Proposal) (t : ProposalTransition)
    (userID : UUID) (comment : String) (clock : Clock) (s : Service)
    (tenantCtx : TenantContext) (input : TransitionProposalInput) (e : Error) :
    ((p.TransitionTo t userID comment clock).2 ≠ none →
        (p.TransitionTo t userID comment clock).1 = p) ∧
      (s.repo.FindByID tenantCtx.TenantID input.ProposalID = .ok (some p) →
        (s.TransitionProposal tenantCtx input clock).result = .error e →
        (e = Error.ErrVersionMismatch ∨ e = Error.ErrUnauthorized ∨
          e = Error.ErrInvalidTransition) →
        (s.TransitionProposal tenantCtx input clock).aggregate = some p) := by
  refine ⟨TransitionTo_unchanged_of_error p t userID comment clock, ?_⟩
  intro hfind hres he
  rw [TransitionProposal_found s tenantCtx input clock p hfind] at hres ⊢
  by_cases h1 : input.ExpectedVersion > 0 ∧ p.Version ≠ input.ExpectedVersion
  · rw [if_pos h1]
  · rw [if_neg h1] at hres ⊢
    cases h2 : s.canPerformTransition tenantCtx p input.Transition with
    | false => simp
    | true =>
      simp only [h2, Bool.true_eq_false, if_false] at hres ⊢
      cases hT : (p.TransitionTo input.Transition tenantCtx.UserID input.Comment clock).2 with
      | some err =>
        simp only [hT]
        rw [TransitionTo_unchanged_of_error p _ _ _ _ (by rw [hT]; simp)]
      | none =>
        simp only [hT] at hres
        cases hS : s.repo.Save
            (p.TransitionTo input.Transition tenantCtx.UserID input.Comment clock).1 with
        | some err =>
          simp only [hS] at hres
          have : Error.wrap "failed to save proposal" err = e := Except.error.inj hres
          rcases he with he | he | he <;> rw [he] at this <;> exact absurd this (by simp)
        | none =>
          simp only [hS] at hres
          split at hres
          · have := Except.error.inj hres
            rcases he with he | he | he <;> rw [he] at this <;> exact absurd this (by simp)
          · exact absurd hres (by simp)

/-- Witness for C2: `Close` on a draft fails inside the aggregate, and `Start` by an
actor without roles fails in the service; both leave the proposal as it was. -/
theorem failed_transition_mutates_nothing_witness :
    (sampleProposal.TransitionTo TransitionClose 3 "" sampleClock).2 ≠ none ∧
      (sampleProposal.TransitionTo TransitionClose 3 "" sampleClock).1 = sampleProposal ∧
      (sampleService.TransitionProposal outsider (sampleInput TransitionStart)
        sampleClock).aggregate = some sampleProposal :=
  ⟨by decide,
    (failed_transition_mutates_nothing sampleProposal TransitionClose 3 "" sampleClock
      sampleService outsider (sampleInput TransitionStart) Error.ErrUnauthorized).1 (by decide),
    (failed_transition_mutates_nothing sampleProposal TransitionClose 3 "" sampleClock
      sampleService outsider (sampleInput TransitionStart) Error.ErrUnauthorized).2
      rfl (by rfl) (Or.inr (Or.inl rfl))⟩

end proposal

namespace appproposal

open common proposal

/-- The outcome of the application service on a proposal that the repository finds. -/
theorem Transition_found (s : Service) (tenantCtx : TenantContext) (cmd : TransitionCommand)
    (clock : Clock) (p : Proposal)
    (hfind : s.repo.FindByID tenantCtx.TenantID cmd.ProposalID = .ok (some p)) :
    s.Transition tenantCtx cmd clock =
      if cmd.ExpectedVersion > 0 ∧ p.Version ≠ cmd.ExpectedVersion then
        ⟨some p, .error Error.ErrVersionMismatch⟩
      else
        match (p.TransitionTo cmd.Transition tenantCtx.UserID cmd.Comment clock).2 with
        | some err =>
          ⟨some (p.TransitionTo cmd.Transition tenantCtx.UserID cmd.Comment clock).1,
            .error err⟩
        | none =>
          match s.repo.Save
              (p.TransitionTo cmd.Transition tenantCtx.UserID cmd.Comment clock).1 with
          | some err =>
            ⟨some (p.TransitionTo cmd.Transition tenantCtx.UserID cmd.Comment clock).1,
              .error (Error.wrap "failed to save proposal" err)⟩
          | none =>
            ⟨some (p.TransitionTo cmd.Transition tenantCtx.UserID cmd.Comment clock).1,
              .ok (p.TransitionTo cmd.Transition tenantCtx.UserID cmd.Comment clock).1⟩ := by
  unfold Service.Transition
  rw [hfind]
  simp only []
  by_cases h1 : cmd.ExpectedVersion > 0 ∧ p.Version ≠ cmd.ExpectedVersion
  · rw [if_pos h1, if_pos h1]
  · rw [if_neg h1, if_neg h1]
    generalize p.TransitionTo cmd.Transition tenantCtx.UserID cmd.Comment clock = r
    obtain ⟨p', _ | err⟩ := r
    · rfl
    · rfl

end appproposal

namespace proposal

open common statemachine

theorem TransitionProposal_ne_version_mismatch (s : Service) (tenantCtx : TenantContext)
    (input : TransitionProposalInput) (clock : Clock) (p : Proposal)
    (hfind : s.repo.FindByID tenantCtx.TenantID input.ProposalID = .ok (some p))
    (hv : ¬ (input.ExpectedVersion > 0 ∧ p.Version ≠ input.ExpectedVersion)) :
    (s.TransitionProposal tenantCtx input clock).result ≠ .error Error.ErrVersionMismatch := by
  rw [TransitionProposal_found s tenantCtx input clock p hfind, if_neg hv]
  cases h2 : s.canPerformTransition tenantCtx p input.Transition with
  | false => simp
  | true =>
    simp only [Bool.true_eq_false, if_false]
    cases hT : (p.TransitionTo input.Transition tenantCtx.UserID input.Comment clock).2 with
    | some err =>
      have := TransitionTo_error_eq p _ _ _ _ err hT
      simp [this]
    | none =>
      simp only []
      split
      · simp
      · split <;> simp

theorem Transition_ne_version_mismatch (s : appproposal.Service) (tenantCtx : TenantContext)
    (cmd : appproposal.TransitionCommand) (clock : Clock) (p : Proposal)
    (hfind : s.repo.FindByID tenantCtx.TenantID cmd.ProposalID = .ok (some p))
    (hv : ¬ (cmd.ExpectedVersion > 0 ∧ p.Version ≠ cmd.ExpectedVersion)) :
    (s.Transition tenantCtx cmd clock).result ≠ .error Error.ErrVersionMismatch := by
  rw [appproposal.Transition_found s tenantCtx cmd clock p hfind, if_neg hv]
  cases hT : (p.TransitionTo cmd.Transition tenantCtx.UserID cmd.Comment clock).2 with
  | some err =>
    have := TransitionTo_error_eq p _ _ _ _ err hT
    simp [this]
  | none =>
    simp only []
    split <;> simp

/-! ## The lifecycle -/

theorem applyTransitions_along_walk
    (edges : List (ProposalState × ProposalTransition × ProposalState)) :
    ∀ (p : Proposal) (calls : List TransitionCall),
      isWalk p.State edges = true →
      calls.map (fun c => c.transition) = edges.map (fun e => e.2.1) →
      -2 ^ 63 ≤ p.Version → p.Version + edges.length < 2 ^ 63 →
      (applyTransitions p calls).2 = none ∧
        (applyTransitions p calls).1.State = edges.foldl (fun _ e => e.2.2) p.State ∧
        (applyTransitions p calls).1.Version = p.Version + edges.length ∧
        (applyTransitions p calls).1.StateHistory.map StateTransition.edge =
          p.StateHistory.map StateTransition.edge ++ edges := by
  induction edges with
  | nil =>
    intro p calls _ hc _ _
    have : calls = [] := by simpa using hc
    subst this
    simp [applyTransitions]
  | cons e rest ih =>
    intro p calls hw hc hlo hhi
    rw [List.length_cons] at hhi
    push_cast at hhi
    obtain ⟨a, b, d⟩ := e
    cases calls with
    | nil => simp at hc
    | cons c cs =>
      simp only [List.map_cons, List.cons.injEq] at hc
      obtain ⟨hct, hcs⟩ := hc
      simp only [isWalk, Bool.and_eq_true, decide_eq_true_eq] at hw
      obtain ⟨⟨ha, hmem⟩, hrest⟩ := hw
      subst ha
      have hnext : NewProposalStateMachine.GetNextState p.State c.transition = .ok d := by
        rw [hct]
        exact (GetNextState_eq_ok_iff _ _ _).2 hmem
      obtain ⟨h0, h1, h2, h3, _, _⟩ :=
        TransitionTo_of_ok p c.transition c.userID c.comment c.clock d hnext
      rw [wrapInt64_of_inRange (p.Version + 1) (by omega) (by omega)] at h2
      have hstep : applyTransitions p (c :: cs) =
          applyTransitions (p.TransitionTo c.transition c.userID c.comment c.clock).1 cs := by
        rw [applyTransitions, h0]
      rw [hstep]
      have hw' : isWalk (p.TransitionTo c.transition c.userID c.comment c.clock).1.State rest
          = true := by rw [h1]; exact hrest
      obtain ⟨i0, i1, i2, i3⟩ := ih _ cs hw' hcs (by rw [h2]; omega) (by rw [h2]; omega)
      refine ⟨i0, ?_, ?_, ?_⟩
      · rw [i1, h1]; rfl
      · rw [i2, h2, List.length_cons]; push_cast; ring
      · rw [i3, h3, hct]; simp [StateTransition.edge]

theorem lifecycleEdges_isWalk : isWalk StateDraft lifecycleEdges = true := by decide

theorem lifecyclePath_eq : lifecyclePath = lifecycleEdges.map (fun e => e.2.1) := by decide

/-- C10, as amended. Starting from a proposal in Draft with version 1 and an empty
history (a newly created one), the transitions of the lifecycle path applied in order all
succeed, the proposal ends in Closed, the path has 15 transitions, the final version is
16 and the history has 15 entries, which are the edges of the path in order. -/
theorem lifecycle_reaches_Closed (p : Proposal) (calls : List TransitionCall)
    (hs : p.State = StateDraft) (hv : p.Version = 1) (hh : p.StateHistory = [])
    (hc : calls.map (fun c => c.transition) = lifecyclePath) :
    (applyTransitions p calls).2 = none ∧
      (applyTransitions p calls).1.State = StateClosed ∧
      calls.length = 15 ∧
      (applyTransitions p calls).1.Version = 16 ∧
      (applyTransitions p calls).1.StateHistory.length = 15 ∧
      (applyTransitions p calls).1.StateHistory.map StateTransition.edge = lifecycleEdges := by
  have hw : isWalk p.State lifecycleEdges = true := by rw [hs]; exact lifecycleEdges_isWalk
  obtain ⟨h0, h1, h2, h3⟩ :=
    applyTransitions_along_walk lifecycleEdges p calls hw (hc.trans lifecyclePath_eq)
      (by rw [hv]; decide) (by rw [hv]; decide)
  rw [hh] at h3
  refine ⟨h0, ?_, ?_, ?_, ?_, h3⟩
  · rw [h1]; rfl
  · have := congrArg List.length hc
    simpa [lifecyclePath] using this
  · rw [h2, hv]; rfl
  · have := congrArg List.length h3
    simpa [lifecycleEdges] using this

/-- Witness for C10 as amended: the lifecycle of a newly created proposal. -/
theorem lifecycle_reaches_Closed_witness :
    (applyTransitions sampleProposal sampleCalls).2 = none ∧
      (applyTransitions sampleProposal sampleCalls).1.State = StateClosed ∧
      sampleCalls.length = 15 ∧
      (applyTransitions sampleProposal sampleCalls).1.Version = 16 ∧
      (applyTransitions sampleProposal sampleCalls).1.StateHistory.length = 15 ∧
      (applyTransitions sampleProposal sampleCalls).1.StateHistory.map StateTransition.edge =
        lifecycleEdges :=
  lifecycle_reaches_Closed sampleProposal sampleCalls rfl rfl rfl rfl

/-- Counterexample to C10 as stated: on a newly created proposal the listed transitions
all succeed and end in Closed, but they are 15, not 14, the final version is 16, not 15,
and the history has 15 entries, not 14. -/
theorem lifecycle_is_not_fourteen_steps :
    sampleProposal.State = StateDraft ∧ sampleProposal.Version = 1 ∧
      sampleProposal.StateHistory = [] ∧
      sampleCalls.map (fun c => c.transition) = lifecyclePath ∧
      (applyTransitions sampleProposal sampleCalls).2 = none ∧
      (applyTransitions sampleProposal sampleCalls).1.State = StateClosed ∧
      sampleCalls.length ≠ 14 ∧
      (applyTransitions sampleProposal sampleCalls).1.Version ≠ 15 ∧
      (applyTransitions sampleProposal sampleCalls).1.StateHistory.length ≠ 14 := by
  have hw : isWalk sampleProposal.State lifecycleEdges = true := lifecycleEdges_isWalk
  obtain ⟨h0, h1, h2, h3⟩ :=
    applyTransitions_along_walk lifecycleEdges sampleProposal sampleCalls hw
      (show sampleCalls.map (fun c => c.transition) = lifecycleEdges.map (fun e => e.2.1) from rfl)
      (by decide) (by decide)
  have hlen := congrArg List.length h3
  refine ⟨rfl, rfl, rfl, rfl, h0, ?_, by decide, ?_, ?_⟩
  · rw [h1]; rfl
  · rw [h2]; decide
  · have h15 : (applyTransitions sampleProposal sampleCalls).1.StateHistory.length = 15 := by
      simpa [lifecycleEdges, sampleProposal, NewProposal, Proposal.AddEvent] using hlen
    rw [h15]; decide

/-! ## The services -/

/-- C3. For a proposal `p` that the repository finds, in the domain service and in the
application service alike: a positive expected version that differs from the version of
`p` makes the call fail with `ErrVersionMismatch` and leaves the aggregate equal to `p`,
whoever the actor and whatever the transition; an expected version that is not positive
or equals the version of `p` never yields `ErrVersionMismatch`. -/
theorem stale_version_is_rejected (ds : Service) (as : appproposal.Service)
    (tenantCtx : TenantContext) (input : TransitionProposalInput)
    (cmd : appproposal.TransitionCommand) (clock : Clock) (p : Proposal)
    (hd : ds.repo.FindByID tenantCtx.TenantID input.ProposalID = .ok (some p))
    (ha : as.repo.FindByID tenantCtx.TenantID cmd.ProposalID = .ok (some p)) :
    ((input.ExpectedVersion > 0 ∧ input.ExpectedVersion ≠ p.Version) →
        (ds.TransitionProposal tenantCtx input clock).result = .error Error.ErrVersionMismatch ∧
          (ds.TransitionProposal tenantCtx input clock).aggregate = some p) ∧
      ((input.ExpectedVersion ≤ 0 ∨ input.ExpectedVersion = p.Version) →
        (ds.TransitionProposal tenantCtx input clock).result ≠
          .error Error.ErrVersionMismatch) ∧
      ((cmd.ExpectedVersion > 0 ∧ cmd.ExpectedVersion ≠ p.Version) →
        (as.Transition tenantCtx cmd clock).result = .error Error.ErrVersionMismatch ∧
          (as.Transition tenantCtx cmd clock).aggregate = some p) ∧
      ((cmd.ExpectedVersion ≤ 0 ∨ cmd.ExpectedVersion = p.Version) →
        (as.Transition tenantCtx cmd clock).result ≠ .error Error.ErrVersionMismatch) := by
  refine ⟨?_, ?_, ?_, ?_⟩
  · intro h
    have h1 : input.ExpectedVersion > 0 ∧ p.Version ≠ input.ExpectedVersion :=
      ⟨h.1, fun e => h.2 e.symm⟩
    rw [TransitionProposal_found ds tenantCtx input clock p hd, if_pos h1]
    exact ⟨rfl, rfl⟩
  · intro h
    refine TransitionProposal_ne_version_mismatch ds tenantCtx input clock p hd ?_
    rintro ⟨hpos, hne⟩
    rcases h with h | h
    · omega
    · exact hne h.symm
  · intro h
    have h1 : cmd.ExpectedVersion > 0 ∧ p.Version ≠ cmd.ExpectedVersion :=
      ⟨h.1, fun e => h.2 e.symm⟩
    rw [appproposal.Transition_found as tenantCtx cmd clock p ha, if_pos h1]
    exact ⟨rfl, rfl⟩
  · intro h
    refine Transition_ne_version_mismatch as tenantCtx cmd clock p ha ?_
    rintro ⟨hpos, hne⟩
    rcases h with h | h
    · omega
    · exact hne h.symm

/-- Witness for C3: the principal investigator, who holds the role required in Draft,
asks for `Start` (an edge of the workflow) with the stale version 7 against version 1. -/
theorem stale_version_is_rejected_witness :
    (sampleService.TransitionProposal investigator
        { sampleInput TransitionStart with ExpectedVersion := 7 } sampleClock).result =
        .error Error.ErrVersionMismatch ∧
      (appproposal.sampleService.Transition investigator
        { appproposal.sampleCommand TransitionStart with ExpectedVersion := 7 }
        sampleClock).result = .error Error.ErrVersionMismatch ∧
      (sampleService.TransitionProposal investigator (sampleInput TransitionStart)
        sampleClock).result ≠ .error Error.ErrVersionMismatch :=
  ⟨((stale_version_is_rejected sampleService appproposal.sampleService investigator
      { sampleInput TransitionStart with ExpectedVersion := 7 }
      { appproposal.sampleCommand TransitionStart with ExpectedVersion := 7 }
      sampleClock sampleProposal rfl rfl).1 (by decide)).1,
    ((stale_version_is_rejected sampleService appproposal.sampleService investigator
      { sampleInput TransitionStart with ExpectedVersion := 7 }
      { appproposal.sampleCommand TransitionStart with ExpectedVersion := 7 }
      sampleClock sampleProposal rfl rfl).2.2.1 (by decide)).1,
    (stale_version_is_rejected sampleService appproposal.sampleService investigator
      (sampleInput TransitionStart) (appproposal.sampleCommand TransitionStart)
      sampleClock sampleProposal rfl rfl).2.1 (by decide)⟩

/-- C5. The checks of `TransitionProposal` run in the order version, authorization,
structural validity. For a proposal `p` that the repository finds: when the version check
passes and the actor is not authorized, the result is `ErrUnauthorized` (and the aggregate
is still `p`), with no condition on whether `(p.State, transition)` has an edge; and
`ErrInvalidTransition` is returned only when the version check has passed and the actor
is authorized. -/
theorem TransitionProposal_check_order (s : Service) (tenantCtx : TenantContext)
    (input : TransitionProposalInput) (clock : Clock) (p : Proposal)
    (hfind : s.repo.FindByID tenantCtx.TenantID input.ProposalID = .ok (some p)) :
    (¬ (input.ExpectedVersion > 0 ∧ p.Version ≠ input.ExpectedVersion) →
        s.canPerformTransition tenantCtx p input.Transition = false →
        (s.TransitionProposal tenantCtx input clock).result = .error Error.ErrUnauthorized ∧
          (s.TransitionProposal tenantCtx input clock).aggregate = some p) ∧
      ((s.TransitionProposal tenantCtx input clock).result =
          .error Error.ErrInvalidTransition →
        ¬ (input.ExpectedVersion > 0 ∧ p.Version ≠ input.ExpectedVersion) ∧
          s.canPerformTransition tenantCtx p input.Transition = true) := by
  rw [TransitionProposal_found s tenantCtx input clock p hfind]
  constructor
  · intro hv hu
    rw [if_neg hv, if_pos hu]
    exact ⟨rfl, rfl⟩
  · intro hres
    by_cases hv : input.ExpectedVersion > 0 ∧ p.Version ≠ input.ExpectedVersion
    · rw [if_pos hv] at hres
      exact absurd (Except.error.inj hres) (by simp)
    · rw [if_neg hv] at hres
      cases hu : s.canPerformTransition tenantCtx p input.Transition with
      | false =>
        rw [if_pos hu] at hres
        exact absurd (Except.error.inj hres) (by simp)
      | true => exact ⟨hv, rfl⟩

/-- Witness for C5: an actor without roles gets `ErrUnauthorized` for `Start`, which has
an edge from Draft, and for `Close`, which has none; the principal investigator gets
`ErrInvalidTransition` for `Close`. -/
theorem TransitionProposal_check_order_witness :
    (sampleService.TransitionProposal outsider (sampleInput TransitionStart)
        sampleClock).result = .error Error.ErrUnauthorized ∧
      (sampleService.TransitionProposal outsider (sampleInput TransitionClose)
        sampleClock).result = .error Error.ErrUnauthorized ∧
      sampleService.canPerformTransition investigator sampleProposal TransitionClose = true :=
  ⟨((TransitionProposal_check_order sampleService outsider (sampleInput TransitionStart)
      sampleClock sampleProposal rfl).1 (by decide) (by decide)).1,
    ((TransitionProposal_check_order sampleService outsider (sampleInput TransitionClose)
      sampleClock sampleProposal rfl).1 (by decide) (by decide)).1,
    ((TransitionProposal_check_order sampleService investigator (sampleInput TransitionClose)
      sampleClock sampleProposal rfl).2 (by rfl)).2⟩

/-- C6, the code at the failing input. An actor who holds no role and is not the
principal investigator asks for `Start` on a draft: the domain service refuses with
`ErrUnauthorized`, the application service behind the HTTP endpoint performs the
transition, saves the proposal and returns it in state `IN_PROGRESS` with version 2. -/
theorem appTransition_skips_authorization :
    sampleService.canPerformTransition outsider sampleProposal TransitionStart = false ∧
      (sampleService.TransitionProposal outsider (sampleInput TransitionStart)
        sampleClock).result = .error Error.ErrUnauthorized ∧
      (∃ q, (appproposal.sampleService.Transition outsider
          (appproposal.sampleCommand TransitionStart) sampleClock).result = .ok q ∧
        q.State = StateInProgress ∧ q.Version = 2) := by
  refine ⟨by decide, by rfl, ?_⟩
  exact ⟨_, rfl, rfl, rfl⟩

/-! ## Withdrawal, terminal states and the listing -/

theorem withdraw_edges :
    (∀ e ∈ NewProposalStateMachine.transitions,
        e.2.1 = TransitionWithdraw → e.1 ∈ specWithdrawEligible ∧ e.2.2 = StateWithdrawn) ∧
      (∀ s ∈ specWithdrawEligible,
        (s, TransitionWithdraw, StateWithdrawn) ∈ NewProposalStateMachine.transitions) := by
  decide

theorem GetNextState_Withdraw_of_mem (s : ProposalState) (h : s ∈ specWithdrawEligible) :
    NewProposalStateMachine.GetNextState s TransitionWithdraw = .ok StateWithdrawn :=
  (GetNextState_eq_ok_iff _ _ _).2 (withdraw_edges.2 s h)

theorem GetNextState_Withdraw_of_not_mem (s : ProposalState) (h : s ∉ specWithdrawEligible) :
    NewProposalStateMachine.GetNextState s TransitionWithdraw =
      .error Error.statemachineErrInvalidTransition :=
  GetNextState_eq_error s TransitionWithdraw
    (fun d hd => h (withdraw_edges.1 (s, TransitionWithdraw, d) hd rfl).1)

/-- C11. `Withdraw` succeeds and yields Withdrawn from each of exactly eleven states:
the list of withdraw-eligible states has eleven distinct members; from a state in it the
engine returns Withdrawn and `TransitionTo` succeeds and lands on Withdrawn; from every
other state (any other string, in particular the ten states the specification names and
Withdrawn itself) the engine and `TransitionTo` fail with their invalid-transition error
and the proposal is untouched. -/
theorem Withdraw_from_exactly_eleven (p : Proposal) (userID : UUID) (comment : String)
    (clock : Clock) :
    specWithdrawEligible.length = 11 ∧ specWithdrawEligible.Nodup ∧
      (p.State ∈ specWithdrawEligible →
        NewProposalStateMachine.GetNextState p.State TransitionWithdraw = .ok StateWithdrawn ∧
          (p.TransitionTo TransitionWithdraw userID comment clock).2 = none ∧
          (p.TransitionTo TransitionWithdraw userID comment clock).1.State = StateWithdrawn) ∧
      (p.State ∉ specWithdrawEligible →
        NewProposalStateMachine.GetNextState p.State TransitionWithdraw =
            .error Error.statemachineErrInvalidTransition ∧
          p.TransitionTo TransitionWithdraw userID comment clock =
            (p, some Error.ErrInvalidTransition)) ∧
      (∀ s ∈ specWithdrawIneligible, s ∉ specWithdrawEligible) := by
  refine ⟨rfl, by decide, ?_, ?_, by decide⟩
  · intro h
    have hn := GetNextState_Withdraw_of_mem p.State h
    obtain ⟨h0, h1, _⟩ := TransitionTo_of_ok p TransitionWithdraw userID comment clock _ hn
    exact ⟨hn, h0, h1⟩
  · intro h
    have hn := GetNextState_Withdraw_of_not_mem p.State h
    exact ⟨hn, TransitionTo_of_error p TransitionWithdraw userID comment clock _ hn⟩

/-- Witness for C11: `Withdraw` from Draft, and from Submitted. -/
theorem Withdraw_from_exactly_eleven_witness :
    (sampleProposal.TransitionTo TransitionWithdraw 3 "" sampleClock).1.State =
        StateWithdrawn ∧
      ({ sampleProposal with State := StateSubmitted } : Proposal).TransitionTo
          TransitionWithdraw 3 "" sampleClock =
        ({ sampleProposal with State := StateSubmitted }, some Error.ErrInvalidTransition) ∧
      StateSubmitted ∉ specWithdrawEligible :=
  ⟨((Withdraw_from_exactly_eleven sampleProposal 3 "" sampleClock).2.2.1 (by decide)).2.2,
    ((Withdraw_from_exactly_eleven { sampleProposal with State := StateSubmitted } 3 ""
      sampleClock).2.2.2.1 (by decide)).2,
    (Withdraw_from_exactly_eleven sampleProposal 3 "" sampleClock).2.2.2.2
      StateSubmitted (by decide)⟩

/-- C16. The listing of the aggregate agrees with what it accepts: a transition is in
`p.GetAvailableTransitions()` exactly when `p.TransitionTo` with it returns no error,
whoever the actor and whatever the comment. -/
theorem GetAvailableTransitions_iff_TransitionTo_succeeds (p : Proposal)
    (t : ProposalTransition) (userID : UUID) (comment : String) (clock : Clock) :
    t ∈ p.GetAvailableTransitions ↔ (p.TransitionTo t userID comment clock).2 = none := by
  unfold Proposal.GetAvailableTransitions
  rw [StateMachine.mem_GetAvailableTransitions, StateMachine.CanTransition_eq_true_iff]
  cases hn : NewProposalStateMachine.GetNextState p.State t with
  | error err =>
    rw [TransitionTo_of_error p t userID comment clock err hn]
    simp
  | ok next =>
    have h0 := (TransitionTo_of_ok p t userID comment clock next hn).1
    simp [h0]

theorem outgoing_eq_not_IsTerminal :
    ∀ s ∈ definedStates,
      NewProposalStateMachine.transitions.any (fun e => decide (e.1 = s)) =
        !ProposalState.IsTerminal s := by
  decide

theorem no_edge_iff (s : ProposalState) :
    (∀ t d, NewProposalStateMachine.GetNextState s t ≠ .ok d) ↔
      NewProposalStateMachine.transitions.any (fun e => decide (e.1 = s)) = false := by
  rw [← Bool.not_eq_true, List.any_eq_true]
  constructor
  · rintro h ⟨⟨a, t, d⟩, hmem, ha⟩
    have ha' : a = s := by simpa using ha
    subst ha'
    exact h t d ((GetNextState_eq_ok_iff _ _ _).2 hmem)
  · intro h t d hn
    exact h ⟨(s, t, d), (GetNextState_eq_ok_iff _ _ _).1 hn, by simp⟩

theorem GetAvailableTransitions_eq_nil_iff (s : ProposalState) :
    NewProposalStateMachine.GetAvailableTransitions s = [] ↔
      ∀ t d, NewProposalStateMachine.GetNextState s t ≠ .ok d := by
  rw [List.eq_nil_iff_forall_not_mem]
  constructor
  · intro h t d hn
    exact h t ((StateMachine.mem_GetAvailableTransitions _ _ _).2
      ((StateMachine.CanTransition_eq_true_iff _ _ _).2 ⟨d, hn⟩))
  · intro h t ht
    obtain ⟨d, hd⟩ := (StateMachine.CanTransition_eq_true_iff _ _ _).1
      ((StateMachine.mem_GetAvailableTransitions _ _ _).1 ht)
    exact h t d hd

theorem TransitionTo_always_fails_iff (s : ProposalState) :
    (∀ (p : Proposal) (t : ProposalTransition) (userID : UUID) (comment : String)
        (clock : Clock), p.State = s →
        p.TransitionTo t userID comment clock = (p, some Error.ErrInvalidTransition)) ↔
      ∀ t d, NewProposalStateMachine.GetNextState s t ≠ .ok d := by
  constructor
  · intro h t d hn
    have hp := h { sampleProposal with State := s } t 3 "" sampleClock rfl
    have h0 := (TransitionTo_of_ok { sampleProposal with State := s } t 3 "" sampleClock d hn).1
    rw [hp] at h0
    exact absurd h0 (by simp)
  · intro h p t userID comment clock hs
    subst hs
    cases hn : NewProposalStateMachine.GetNextState p.State t with
    | error err => exact TransitionTo_of_error p t userID comment clock err hn
    | ok next => exact absurd hn (h t next)

/-- C12. For every defined proposal state `s`: the listing of `s` is empty exactly when
`s.IsTerminal()`, `TransitionTo` fails with the invalid-transition error for every
transition (on every proposal in state `s`) exactly when `s.IsTerminal()`, and
`s.IsTerminal()` holds exactly for Closed, Withdrawn, Declined and NotFunded. -/
theorem no_outgoing_iff_IsTerminal (s : ProposalState) (hs : s ∈ definedStates) :
    (NewProposalStateMachine.GetAvailableTransitions s = [] ↔
        ProposalState.IsTerminal s = true) ∧
      ((∀ (p : Proposal) (t : ProposalTransition) (userID : UUID) (comment : String)
          (clock : Clock), p.State = s →
          p.TransitionTo t userID comment clock = (p, some Error.ErrInvalidTransition)) ↔
        ProposalState.IsTerminal s = true) ∧
      (ProposalState.IsTerminal s = true ↔
        s = StateClosed ∨ s = StateWithdrawn ∨ s = StateDeclined ∨ s = StateNotFunded) := by
  have hkey : (∀ t d, NewProposalStateMachine.GetNextState s t ≠ .ok d) ↔
      ProposalState.IsTerminal s = true := by
    rw [no_edge_iff, outgoing_eq_not_IsTerminal s hs]
    cases ProposalState.IsTerminal s <;> simp
  refine ⟨(GetAvailableTransitions_eq_nil_iff s).trans hkey,
    (TransitionTo_always_fails_iff s).trans hkey, ?_⟩
  simp [ProposalState.IsTerminal]

/-- Witness for C12: Closed is terminal and lists nothing; Rejected is not terminal. -/
theorem no_outgoing_iff_IsTerminal_witness :
    NewProposalStateMachine.GetAvailableTransitions StateClosed = [] ∧
      NewProposalStateMachine.GetAvailableTransitions StateRejected ≠ [] :=
  ⟨(no_outgoing_iff_IsTerminal StateClosed (by decide)).1.2 (by decide),
    fun h => absurd ((no_outgoing_iff_IsTerminal StateRejected (by decide)).1.1 h)
      (by decide)⟩

/-! ## Field mutations -/

theorem Update_of_editable (p : Proposal) (userID : UUID) (updates : ProposalUpdates)
    (now : Time) (h : p.CanEdit = true) :
    ∃ q : Proposal, p.Update userID updates now = (q.Touch userID now, none) ∧
      q.Version = p.Version ∧ q.StateHistory = p.StateHistory ∧ q.State = p.State := by
  unfold Proposal.Update
  rw [if_neg (by simp [h])]
  lift_lets
  intro p1 p2 p3 p4 p5 p6 p7 p8 p9 p10 p11 p12
  refine ⟨p12, rfl, ?_⟩
  have h0 : p.Version = p.Version ∧ p.StateHistory = p.StateHistory ∧ p.State = p.State :=
    ⟨rfl, rfl, rfl⟩
  have h1 : p1.Version = p.Version ∧ p1.StateHistory = p.StateHistory ∧
      p1.State = p.State := by
    dsimp only [p1]
    cases updates.Title <;> exact h0
  have h2 : p2.Version = p.Version ∧ p2.StateHistory = p.StateHistory ∧
      p2.State = p.State := by
    dsimp only [p2]
    cases updates.ShortTitle <;> exact h1
  have h3 : p3.Version = p.Version ∧ p3.StateHistory = p.StateHistory ∧
      p3.State = p.State := by
    dsimp only [p3]
    cases updates.Abstract <;> exact h2
  have h4 : p4.Version = p.Version ∧ p4.StateHistory = p.StateHistory ∧
      p4.State = p.State := by
    dsimp only [p4]
    cases updates.ResearchArea <;> exact h3
  have h5 : p5.Version = p.Version ∧ p5.StateHistory = p.StateHistory ∧
      p5.State = p.State := by
    dsimp only [p5]
    cases updates.Keywords <;> exact h4
  have h6 : p6.Version = p.Version ∧ p6.StateHistory = p.StateHistory ∧
      p6.State = p.State := by
    dsimp only [p6]
    cases updates.SponsorDeadline <;> exact h5
  have h7 : p7.Version = p.Version ∧ p7.StateHistory = p.StateHistory ∧
      p7.State = p.State := by
    dsimp only [p7]
    cases updates.InternalDeadline <;> exact h6
  have h8 : p8.Version = p.Version ∧ p8.StateHistory = p.StateHistory ∧
      p8.State = p.State := by
    dsimp only [p8]
    cases updates.IRBRequired <;> exact h7
  have h9 : p9.Version = p.Version ∧ p9.StateHistory = p.StateHistory ∧
      p9.State = p.State := by
    dsimp only [p9]
    cases updates.IACUCRequired <;> exact h8
  have h10 : p10.Version = p.Version ∧ p10.StateHistory = p.StateHistory ∧
      p10.State = p.State := by
    dsimp only [p10]
    cases updates.IBCRequired <;> exact h9
  have h11 : p11.Version = p.Version ∧ p11.StateHistory = p.StateHistory ∧
      p11.State = p.State := by
    dsimp only [p11]
    cases updates.ExportControl <;> exact h10
  have h12 : p12.Version = p.Version ∧ p12.StateHistory = p.StateHistory ∧
      p12.State = p.State := by
    dsimp only [p12]
    cases updates.ConflictOfInterest <;> exact h11
  exact h12

/-- C15. `CanEdit()` is true exactly in Draft, InProgress and Revisions; on a proposal in
any other state each of `Update`, `AddCoInvestigator`, `RemoveCoInvestigator`,
`AddKeyPerson` and `AddAttachment` returns `ErrProposalNotEditable` and leaves the whole
proposal, `Version` included, as it was. -/
theorem not_editable_mutations_fail (p : Proposal) (userID coiID : UUID)
    (updates : ProposalUpdates) (keyPerson : KeyPerson) (attachment : Attachment)
    (newID : UUID) (uploadedAt now : Time) :
    (p.CanEdit = true ↔
        p.State = StateDraft ∨ p.State = StateInProgress ∨ p.State = StateRevisions) ∧
      (p.CanEdit = false →
        p.Update userID updates now = (p, some Error.ErrProposalNotEditable) ∧
          p.AddCoInvestigator userID coiID now = (p, some Error.ErrProposalNotEditable) ∧
          p.RemoveCoInvestigator userID coiID now = (p, some Error.ErrProposalNotEditable) ∧
          p.AddKeyPerson userID keyPerson now = (p, some Error.ErrProposalNotEditable) ∧
          p.AddAttachment userID attachment newID uploadedAt now =
            (p, some Error.ErrProposalNotEditable)) := by
  constructor
  · simp [Proposal.CanEdit, ProposalState.CanEdit]
  · intro h
    refine ⟨?_, ?_, ?_, ?_, ?_⟩
    · unfold Proposal.Update; rw [if_pos (by simp [h])]
    · unfold Proposal.AddCoInvestigator; rw [if_pos (by simp [h])]
    · unfold Proposal.RemoveCoInvestigator; rw [if_pos (by simp [h])]
    · unfold Proposal.AddKeyPerson; rw [if_pos (by simp [h])]
    · unfold Proposal.AddAttachment; rw [if_pos (by simp [h])]

/-- Witness for C15: a field update on a proposal in Submitted. -/
theorem not_editable_mutations_fail_witness :
    submittedProposal.CanEdit = false ∧
      submittedProposal.Update 3 { noUpdates with Title := some "New title" } 30 =
        (submittedProposal, some Error.ErrProposalNotEditable) ∧
      submittedProposal.AddAttachment 3 sampleAttachment 12 30 31 =
        (submittedProposal, some Error.ErrProposalNotEditable) :=
  ⟨by decide,
    ((not_editable_mutations_fail submittedProposal 3 7
      { noUpdates with Title := some "New title" } sampleKeyPerson sampleAttachment 12 30
      31).2 (by decide)).1,
    by
      have h := ((not_editable_mutations_fail submittedProposal 3 7
        { noUpdates with Title := some "New title" } sampleKeyPerson sampleAttachment 12 30
        31).2 (by decide)).2.2.2.2
      exact h⟩

/-! ## Version and history -/

theorem mutate_step (q : Proposal) (m : Mutation) :
    ((q.mutate m).1.Version = q.Version ∧ (q.mutate m).1.StateHistory = q.StateHistory) ∨
      ((q.mutate m).1.Version = wrapInt64 (q.Version + 1) ∧
        (q.mutate m).1.StateHistory = q.StateHistory ∧ m.isTransitionTo = false) ∨
      ((q.mutate m).1.Version = wrapInt64 (q.Version + 1) ∧
        (q.mutate m).1.StateHistory.length = q.StateHistory.length + 1 ∧
        m.isTransitionTo = true) := by
  cases m with
  | TransitionTo t userID comment clock =>
    simp only [Proposal.mutate]
    cases hn : NewProposalStateMachine.GetNextState q.State t with
    | error err =>
      rw [TransitionTo_of_error q t userID comment clock err hn]
      exact Or.inl ⟨rfl, rfl⟩
    | ok next =>
      obtain ⟨_, _, h2, h3, _, _⟩ := TransitionTo_of_ok q t userID comment clock next hn
      refine Or.inr (Or.inr ⟨h2, ?_, rfl⟩)
      rw [h3, List.length_append]
      rfl
  | Update userID updates now =>
    simp only [Proposal.mutate]
    cases h : q.CanEdit with
    | false =>
      have : q.Update userID updates now = (q, some Error.ErrProposalNotEditable) := by
        unfold Proposal.Update; rw [if_pos (by simp [h])]
      rw [this]
      exact Or.inl ⟨rfl, rfl⟩
    | true =>
      obtain ⟨q', hq, hv, hh, _⟩ := Update_of_editable q userID updates now h
      rw [hq]
      refine Or.inr (Or.inl ⟨?_, hh, rfl⟩)
      show wrapInt64 (q'.Version + 1) = wrapInt64 (q.Version + 1)
      rw [hv]
  | AddCoInvestigator userID coiID now =>
    simp only [Proposal.mutate]
    unfold Proposal.AddCoInvestigator
    split_ifs <;>
      first
        | exact Or.inl ⟨rfl, rfl⟩
        | exact Or.inr (Or.inl ⟨rfl, rfl, rfl⟩)
  | RemoveCoInvestigator userID coiID now =>
    simp only [Proposal.mutate]
    unfold Proposal.RemoveCoInvestigator
    split_ifs <;>
      first
        | exact Or.inl ⟨rfl, rfl⟩
        | exact Or.inr (Or.inl ⟨rfl, rfl, rfl⟩)
  | AddKeyPerson userID keyPerson now =>
    simp only [Proposal.mutate]
    unfold Proposal.AddKeyPerson
    split_ifs <;>
      first
        | exact Or.inl ⟨rfl, rfl⟩
        | exact Or.inr (Or.inl ⟨rfl, rfl, rfl⟩)
  | AddAttachment userID attachment newID uploadedAt now =>
    simp only [Proposal.mutate]
    unfold Proposal.AddAttachment
    split_ifs <;>
      first
        | exact Or.inl ⟨rfl, rfl⟩
        | exact Or.inr (Or.inl ⟨rfl, rfl, rfl⟩)

theorem mutate_step_inRange (q : Proposal) (m : Mutation)
    (hlo : -2 ^ 63 ≤ q.Version) (hhi : q.Version < 2 ^ 63 - 1) :
    ((q.mutate m).1.Version = q.Version ∧ (q.mutate m).1.StateHistory = q.StateHistory) ∨
      ((q.mutate m).1.Version = q.Version + 1 ∧
        (q.mutate m).1.StateHistory = q.StateHistory ∧ m.isTransitionTo = false) ∨
      ((q.mutate m).1.Version = q.Version + 1 ∧
        (q.mutate m).1.StateHistory.length = q.StateHistory.length + 1 ∧
        m.isTransitionTo = true) := by
  have h := mutate_step q m
  rw [wrapInt64_of_inRange (q.Version + 1) (by omega) (by omega)] at h
  exact h

theorem mutateAll_version_bounds (ms : List Mutation) :
    ∀ q : Proposal, -2 ^ 63 ≤ q.Version → q.Version + ms.length < 2 ^ 63 →
      q.Version ≤ (q.mutateAll ms).Version ∧
        (q.mutateAll ms).Version ≤ q.Version + ms.length := by
  induction ms with
  | nil =>
    intro q _ _
    simp [Proposal.mutateAll]
  | cons m rest ih =>
    intro q hlo hhi
    rw [List.length_cons] at hhi ⊢
    push_cast at hhi ⊢
    rw [Proposal.mutateAll]
    have hs := mutate_step_inRange q m hlo (by omega)
    have h := ih (q.mutate m).1 (by rcases hs with h1 | h1 | h1 <;> omega)
      (by rcases hs with h1 | h1 | h1 <;> omega)
    rcases hs with h1 | h1 | h1 <;> omega

theorem mutateAll_history_le (ms : List Mutation) :
    ∀ q : Proposal, -2 ^ 63 ≤ q.Version → q.Version + ms.length < 2 ^ 63 →
      (q.StateHistory.length : Int) ≤ q.Version - 1 →
      ((q.mutateAll ms).StateHistory.length : Int) ≤ (q.mutateAll ms).Version - 1 := by
  induction ms with
  | nil => intro q _ _ h; exact h
  | cons m rest ih =>
    intro q hlo hhi h
    rw [List.length_cons] at hhi
    push_cast at hhi
    rw [Proposal.mutateAll]
    have hs := mutate_step_inRange q m hlo (by omega)
    apply ih
    · rcases hs with h1 | h1 | h1 <;> omega
    · rcases hs with h1 | h1 | h1 <;> omega
    · rcases hs with h1 | h1 | h1
      · rw [h1.1, h1.2]; exact h
      · rw [h1.1, h1.2.1]; omega
      · rw [h1.1, h1.2.1]; push_cast; omega

theorem mutateAll_history_eq (ms : List Mutation)
    (hall : ∀ m ∈ ms, m.isTransitionTo = true) :
    ∀ q : Proposal, -2 ^ 63 ≤ q.Version → q.Version + ms.length < 2 ^ 63 →
      (q.StateHistory.length : Int) = q.Version - 1 →
      ((q.mutateAll ms).StateHistory.length : Int) = (q.mutateAll ms).Version - 1 := by
  induction ms with
  | nil => intro q _ _ h; exact h
  | cons m rest ih =>
    intro q hlo hhi h
    rw [List.length_cons] at hhi
    push_cast at hhi
    rw [Proposal.mutateAll]
    have hm : m.isTransitionTo = true := hall m (List.mem_cons_self _ _)
    have hs := mutate_step_inRange q m hlo (by omega)
    apply ih (fun m' hm' => hall m' (List.mem_cons_of_mem _ hm'))
    · rcases hs with h1 | h1 | h1 <;> omega
    · rcases hs with h1 | h1 | h1 <;> omega
    · rcases hs with h1 | h1 | h1
      · rw [h1.1, h1.2]; exact h
      · rw [hm] at h1; exact absurd h1.2.2 (by simp)
      · rw [h1.1, h1.2.1]; push_cast; omega

theorem mutateAll_replicate_Update (userID : UUID) (updates : ProposalUpdates) (now : Time) :
    ∀ (n : Nat) (q : Proposal), q.CanEdit = true → -2 ^ 63 ≤ q.Version → q.Version < 2 ^ 63 →
      (q.mutateAll (List.replicate n (Mutation.Update userID updates now))).Version =
        wrapInt64 (q.Version + n) := by
  intro n
  induction n with
  | zero =>
    intro q _ hlo hhi
    simp only [List.replicate, Proposal.mutateAll, Nat.cast_zero, add_zero]
    exact (wrapInt64_of_inRange q.Version hlo hhi).symm
  | succ n ih =>
    intro q hq _ _
    obtain ⟨q', hu, hv, _, hs⟩ := Update_of_editable q userID updates now hq
    have hstep : (q.mutate (Mutation.Update userID updates now)).1 = q'.Touch userID now := by
      simp only [Proposal.mutate, hu]
    have hver : (q'.Touch userID now).Version = wrapInt64 (q.Version + 1) := by
      rw [← hv]; rfl
    have hedit : (q'.Touch userID now).CanEdit = true := by
      have : (q'.Touch userID now).State = q.State := hs
      unfold Proposal.CanEdit at hq ⊢
      rw [this]; exact hq
    rw [List.replicate, Proposal.mutateAll, hstep,
      ih _ hedit (by rw [hver]; exact (wrapInt64_inRange _).1)
        (by rw [hver]; exact (wrapInt64_inRange _).2),
      hver, wrapInt64_succ]
    push_cast
    rfl

theorem mutateAll_append (ms ms' : List Mutation) :
    ∀ q : Proposal, q.mutateAll (ms ++ ms') = (q.mutateAll ms).mutateAll ms' := by
  induction ms with
  | nil => intro q; rfl
  | cons m rest ih => intro q; exact ih _

/-- C14, as amended. A proposal created by `NewProposal` has version 1, state Draft and an
empty history. After any sequence of fewer than `2^63 - 1` of the aggregate's mutating
operations on a proposal with version 1 and empty history, the version has never
decreased (it is at least what it was after any earlier part of the sequence) and the
history has at most `Version - 1` entries; it has exactly `Version - 1` entries when every
operation of the sequence is a `TransitionTo`. -/
theorem version_history_invariant (tenantID : TenantID) (userID : UUID) (title : String)
    (piID sponsorID : UUID) (department : String) (projectPeriod : DateRange)
    (clock : CreationClock) (p : Proposal) (ms ms' : List Mutation) :
    ((NewProposal tenantID userID title piID sponsorID department projectPeriod
          clock).Version = 1 ∧
        (NewProposal tenantID userID title piID sponsorID department projectPeriod
          clock).State = StateDraft ∧
        (NewProposal tenantID userID title piID sponsorID department projectPeriod
          clock).StateHistory = []) ∧
      (p.Version = 1 → p.StateHistory = [] → ms.length + ms'.length < 2 ^ 63 - 1 →
        (p.mutateAll ms).Version ≤ (p.mutateAll (ms ++ ms')).Version ∧
          1 ≤ (p.mutateAll ms).Version ∧
          ((p.mutateAll ms).StateHistory.length : Int) ≤ (p.mutateAll ms).Version - 1 ∧
          ((∀ m ∈ ms, m.isTransitionTo = true) →
            ((p.mutateAll ms).StateHistory.length : Int) = (p.mutateAll ms).Version - 1)) := by
  refine ⟨⟨rfl, rfl, rfl⟩, ?_⟩
  intro hv hh hlen
  have h0 : (p.StateHistory.length : Int) = p.Version - 1 := by rw [hv, hh]; rfl
  have hlo : -2 ^ 63 ≤ p.Version := by rw [hv]; decide
  have hhi : p.Version + ms.length < 2 ^ 63 := by rw [hv]; omega
  have hb := mutateAll_version_bounds ms p hlo hhi
  refine ⟨?_, ?_, ?_, ?_⟩
  · rw [mutateAll_append]
    exact (mutateAll_version_bounds ms' _ (by omega) (by omega)).1
  · omega
  · exact mutateAll_history_le ms p hlo hhi (le_of_eq h0)
  · intro hall
    exact mutateAll_history_eq ms hall p hlo hhi h0

/-- Witness for C14 as amended: a new proposal, then `Start`, then a field update. -/
theorem version_history_invariant_witness :
    sampleProposal.Version = 1 ∧ sampleProposal.StateHistory = [] ∧
      ((sampleProposal.mutateAll
          [Mutation.TransitionTo TransitionStart 3 "" sampleClock,
            Mutation.Update 3 noUpdates 30]).StateHistory.length : Int) ≤
        (sampleProposal.mutateAll
          [Mutation.TransitionTo TransitionStart 3 "" sampleClock,
            Mutation.Update 3 noUpdates 30]).Version - 1 :=
  ⟨rfl, rfl,
    ((version_history_invariant 1 2 "Soil microbiome survey" 3 4 "Biology"
      { StartDate := 100, EndDate := 200 }
      { entityID := 5, createdAt := 10, year := 2026, eventID := 6, occurredAt := 10 }
      sampleProposal
      [Mutation.TransitionTo TransitionStart 3 "" sampleClock, Mutation.Update 3 noUpdates 30]
      []).2 rfl rfl (by decide)).2.2.1⟩

/-- Counterexample to C14 as stated: one field update on a newly created proposal
raises the version to 2 while the history stays empty, so the history does not have
`Version - 1` entries; and `2^63 - 1` field updates in a row on a newly created proposal
take the version from 1 past the largest Go `int` to `-2^63`, so the version has
decreased. -/
theorem history_length_is_not_version_minus_one :
    (sampleProposal.mutateAll [Mutation.Update 3 noUpdates 30]).Version = 2 ∧
      (sampleProposal.mutateAll [Mutation.Update 3 noUpdates 30]).StateHistory.length = 0 ∧
      ((sampleProposal.mutateAll [Mutation.Update 3 noUpdates 30]).StateHistory.length : Int) ≠
        (sampleProposal.mutateAll [Mutation.Update 3 noUpdates 30]).Version - 1 ∧
      manyUpdates.length = 2 ^ 63 - 1 ∧
      (sampleProposal.mutateAll manyUpdates).Version = -2 ^ 63 ∧
      (sampleProposal.mutateAll manyUpdates).Version < sampleProposal.Version := by
  have hv : (sampleProposal.mutateAll [Mutation.Update 3 noUpdates 30]).Version = 2 := by rfl
  have hl : (sampleProposal.mutateAll [Mutation.Update 3 noUpdates 30]).StateHistory.length = 0 :=
    by rfl
  have hs : sampleProposal.Version = 1 := by rfl
  have hw : (sampleProposal.mutateAll manyUpdates).Version = -2 ^ 63 := by
    unfold manyUpdates
    rw [mutateAll_replicate_Update 3 noUpdates 30 (2 ^ 63 - 1) sampleProposal (by decide)
      (by decide) (by decide), hs]
    decide
  refine ⟨hv, hl, ?_, ?_, hw, ?_⟩
  · rw [hv, hl]
    decide
  · exact List.length_replicate _ _
  · rw [hw, hs]
    decide

/-! ## The ownership exception -/

theorem canPerformTransition_Withdraw_of_PI (s : Service) (tenantCtx : TenantContext)
    (p : Proposal) (hpi : p.PrincipalInvestigatorID = tenantCtx.UserID) :
    s.canPerformTransition tenantCtx p TransitionWithdraw = true := by
  unfold Service.canPerformTransition
  simp [hpi]

theorem canPerformTransition_eq_false (s : Service) (tenantCtx : TenantContext)
    (p : Proposal) (t : ProposalTransition)
    (hroles : ∀ role ∈ (GetStateMetadata p.State).RequiredRoles, role ∉ tenantCtx.Roles)
    (ht : t ≠ TransitionWithdraw) :
    s.canPerformTransition tenantCtx p t = false := by
  unfold Service.canPerformTransition
  have h1 : ¬ ((GetStateMetadata p.State).RequiredRoles.any
      (fun requiredRole => tenantCtx.HasRole requiredRole) = true) := by
    rw [any_HasRole_iff]
    rintro ⟨role, hr, hm⟩
    exact hroles role hr hm
  simp only [h1, ht, false_and, if_false]
  simp

/-- C13, as amended. For a proposal that the repository finds, whose principal
investigator is the actor, where the actor holds none of the required roles of the
current state, the version check passes (the expected version is not positive or equals
the version), every save succeeds and the event store, if one is configured, accepts
every append: `TransitionProposal` with `Withdraw` succeeds from each of the eleven
withdraw-eligible states and returns the proposal in Withdrawn, and with every transition
other than `Withdraw` it fails with `ErrUnauthorized` and leaves the proposal as it was. -/
theorem PI_may_only_withdraw (s : Service) (tenantCtx : TenantContext)
    (input : TransitionProposalInput) (clock : Clock) (p : Proposal)
    (hfind : s.repo.FindByID tenantCtx.TenantID input.ProposalID = .ok (some p))
    (hpi : p.PrincipalInvestigatorID = tenantCtx.UserID)
    (hroles : ∀ role ∈ (GetStateMetadata p.State).RequiredRoles, role ∉ tenantCtx.Roles)
    (hver : ¬ (input.ExpectedVersion > 0 ∧ p.Version ≠ input.ExpectedVersion))
    (hsave : ∀ q, s.repo.Save q = none)
    (hstore : ∀ store, s.eventStore = some store → ∀ es, store.Append es = none) :
    (input.Transition = TransitionWithdraw → p.State ∈ specWithdrawEligible →
        ∃ q, (s.TransitionProposal tenantCtx input clock).result = .ok q ∧
          (s.TransitionProposal tenantCtx input clock).aggregate = some q ∧
          q.State = StateWithdrawn) ∧
      (input.Transition ≠ TransitionWithdraw →
        (s.TransitionProposal tenantCtx input clock).result = .error Error.ErrUnauthorized ∧
          (s.TransitionProposal tenantCtx input clock).aggregate = some p) := by
  rw [TransitionProposal_found s tenantCtx input clock p hfind, if_neg hver]
  constructor
  · intro ht hs
    have hcan : s.canPerformTransition tenantCtx p input.Transition = true := by
      rw [ht]; exact canPerformTransition_Withdraw_of_PI s tenantCtx p hpi
    have hn : NewProposalStateMachine.GetNextState p.State input.Transition =
        .ok StateWithdrawn := by
      rw [ht]; exact GetNextState_Withdraw_of_mem p.State hs
    obtain ⟨h0, h1, _⟩ :=
      TransitionTo_of_ok p input.Transition tenantCtx.UserID input.Comment clock _ hn
    have happ : (match s.eventStore with
        | some eventStore =>
          eventStore.Append
            (p.TransitionTo input.Transition tenantCtx.UserID input.Comment
              clock).1.GetUncommittedEvents
        | none => none) = none := by
      cases hst : s.eventStore with
      | none => rfl
      | some store => exact hstore store hst _
    simp only [hcan, Bool.true_eq_false, if_false, h0, hsave, happ]
    exact ⟨_, rfl, rfl, h1⟩
  · intro ht
    have hcan := canPerformTransition_eq_false s tenantCtx p input.Transition hroles ht
    rw [if_pos hcan]
    exact ⟨rfl, rfl⟩

/-- Witness for C13 as amended: the principal investigator, holding no role, withdraws
a draft and is refused `Start`. -/
theorem PI_may_only_withdraw_witness :
    (∃ q, (sampleService.TransitionProposal piWithoutRoles (sampleInput TransitionWithdraw)
          sampleClock).result = .ok q ∧
        (sampleService.TransitionProposal piWithoutRoles (sampleInput TransitionWithdraw)
          sampleClock).aggregate = some q ∧
        q.State = StateWithdrawn) ∧
      (sampleService.TransitionProposal piWithoutRoles (sampleInput TransitionStart)
        sampleClock).result = .error Error.ErrUnauthorized :=
  ⟨(PI_may_only_withdraw sampleService piWithoutRoles (sampleInput TransitionWithdraw)
      sampleClock sampleProposal rfl rfl (by decide) (by decide) (fun _ => rfl)
      (fun _ h => absurd h (by simp [sampleService]))).1 rfl (by decide),
    ((PI_may_only_withdraw sampleService piWithoutRoles (sampleInput TransitionStart)
      sampleClock sampleProposal rfl rfl (by decide) (by decide) (fun _ => rfl)
      (fun _ h => absurd h (by simp [sampleService]))).2 (by decide)).1⟩

/-- Counterexample to C13 as stated. The actor is the principal investigator of a draft
(a withdraw-eligible state), holds none of the required roles, and every save succeeds.
With an event store that rejects the append, `Withdraw` fails; and with a stale expected
version, `Withdraw` fails and `Start` fails with `ErrVersionMismatch`, not with
`ErrUnauthorized`. -/
theorem PI_withdraw_needs_more_than_a_save :
    sampleProposal.PrincipalInvestigatorID = piWithoutRoles.UserID ∧
      sampleProposal.State ∈ specWithdrawEligible ∧
      (∀ role ∈ (GetStateMetadata sampleProposal.State).RequiredRoles,
        role ∉ piWithoutRoles.Roles) ∧
      (∀ q, storeFailingService.repo.Save q = none) ∧
      (storeFailingService.TransitionProposal piWithoutRoles (sampleInput TransitionWithdraw)
        sampleClock).result =
        .error (Error.wrap "failed to append events" (Error.new "event store unavailable")) ∧
      (sampleService.TransitionProposal piWithoutRoles
        { sampleInput TransitionWithdraw with ExpectedVersion := 7 } sampleClock).result =
        .error Error.ErrVersionMismatch ∧
      (sampleService.TransitionProposal piWithoutRoles
        { sampleInput TransitionStart with ExpectedVersion := 7 } sampleClock).result =
        .error Error.ErrVersionMismatch := by
  refine ⟨rfl, by decide, by decide, fun _ => rfl, by rfl, by rfl, by rfl⟩

end proposal

/-! ## The engine: guards, registration and execution -/

namespace statemachine

namespace StateMachine

variable {S T W : Type} [DecidableEq S] [DecidableEq T]

omit [DecidableEq S] in
theorem guardsAllow_eq (sm : StateMachine S T W) (s : S) (t : T) (d : S) :
    sm.guardsAllow s t d = (sm.guardsFor t).all (fun g => g s d) := by
  unfold guardsAllow guardsFor
  cases sm.guards.get? t with
  | none => rfl
  | some gs => rfl

theorem CanTransition_iff_edge_and_guards (sm : StateMachine S T W) (s : S) (t : T) :
    sm.CanTransition s t = true ↔
      ∃ dst, sm.edge? s t = some dst ∧ ∀ g ∈ sm.guardsFor t, g s dst = true := by
  unfold CanTransition edge?
  cases sm.transitions.get? s with
  | none => simp
  | some inner =>
    cases h2 : inner.get? t with
    | none => simp [h2]
    | some dst => simp [h2, guardsAllow_eq]

omit [DecidableEq S] in
theorem guardsFor_AddGuard (sm : StateMachine S T W) (t' t : T) (g : S → S → Bool) :
    (sm.AddGuard t' g).guardsFor t =
      if t' = t then sm.guardsFor t ++ [g] else sm.guardsFor t := by
  unfold AddGuard guardsFor
  by_cases h : t' = t
  · subst h
    simp only [GoMap.get?_set_self, if_true]
  · have h' : t ≠ t' := fun e => h e.symm
    simp only [GoMap.get?_set_ne _ _ _ _ h', if_neg h]

omit [DecidableEq T] in
theorem exitsFor_OnExit (sm : StateMachine S T W) (s' s : S) (cb : S → W → W) :
    (sm.OnExit s' cb).exitsFor s = if s' = s then sm.exitsFor s ++ [cb] else sm.exitsFor s := by
  unfold OnExit exitsFor
  by_cases h : s' = s
  · subst h
    simp only [GoMap.get?_set_self, if_true]
  · have h' : s ≠ s' := fun e => h e.symm
    simp only [GoMap.get?_set_ne _ _ _ _ h', if_neg h]

omit [DecidableEq T] in
theorem entersFor_OnEnter (sm : StateMachine S T W) (s' s : S) (cb : S → W → W) :
    (sm.OnEnter s' cb).entersFor s =
      if s' = s then sm.entersFor s ++ [cb] else sm.entersFor s := by
  unfold OnEnter entersFor
  by_cases h : s' = s
  · subst h
    simp only [GoMap.get?_set_self, if_true]
  · have h' : s ≠ s' := fun e => h e.symm
    simp only [GoMap.get?_set_ne _ _ _ _ h', if_neg h]

theorem guardsFor_registerAll (regs : List (Registration S T W)) (t : T) :
    ∀ sm : StateMachine S T W,
      (sm.registerAll regs).guardsFor t = sm.guardsFor t ++ guardsRegistered t regs := by
  induction regs with
  | nil => intro sm; simp [registerAll, guardsRegistered]
  | cons r rest ih =>
    intro sm
    rw [registerAll, ih]
    cases r with
    | transition a b c => rfl
    | guard t' g =>
      simp only [register, guardsFor_AddGuard, guardsRegistered]
      by_cases h : t' = t
      · simp [h]
      · simp [h]
    | enter st cb => rfl
    | exit st cb => rfl

theorem exitsFor_registerAll (regs : List (Registration S T W)) (s : S) :
    ∀ sm : StateMachine S T W,
      (sm.registerAll regs).exitsFor s = sm.exitsFor s ++ exitsRegistered s regs := by
  induction regs with
  | nil => intro sm; simp [registerAll, exitsRegistered]
  | cons r rest ih =>
    intro sm
    rw [registerAll, ih]
    cases r with
    | transition a b c => rfl
    | guard t' g => rfl
    | enter st cb => rfl
    | exit st cb =>
      simp only [register, exitsFor_OnExit, exitsRegistered]
      by_cases h : st = s
      · simp [h]
      · simp [h]

theorem entersFor_registerAll (regs : List (Registration S T W)) (s : S) :
    ∀ sm : StateMachine S T W,
      (sm.registerAll regs).entersFor s = sm.entersFor s ++ entersRegistered s regs := by
  induction regs with
  | nil => intro sm; simp [registerAll, entersRegistered]
  | cons r rest ih =>
    intro sm
    rw [registerAll, ih]
    cases r with
    | transition a b c => rfl
    | guard t' g => rfl
    | exit st cb => rfl
    | enter st cb =>
      simp only [register, entersFor_OnEnter, entersRegistered]
      by_cases h : st = s
      · simp [h]
      · simp [h]

theorem guardsFor_build (initialState : S) (regs : List (Registration S T W)) (t : T) :
    (build initialState regs).guardsFor t = guardsRegistered t regs := by
  unfold build
  rw [guardsFor_registerAll]
  rfl

theorem exitsFor_build (initialState : S) (regs : List (Registration S T W)) (s : S) :
    (build (T := T) initialState regs).exitsFor s = exitsRegistered s regs := by
  unfold build
  rw [exitsFor_registerAll]
  rfl

theorem entersFor_build (initialState : S) (regs : List (Registration S T W)) (s : S) :
    (build (T := T) initialState regs).entersFor s = entersRegistered s regs := by
  unfold build
  rw [entersFor_registerAll]
  rfl

/-- C17. Guards are per transition symbol and conjunctive. For every engine,
`CanTransition(from, t)` is true exactly when the table maps `(from, t)` to some state
`dst` and every guard in the list of `t` accepts `(from, dst)`; for an engine built by
`New` and registering calls that list is the guards registered with `AddGuard` for `t`,
in order, whatever the source state of the edge; registering one more guard for `t`
adds its condition to every edge labelled `t`, and registering a guard for another
symbol leaves `CanTransition` on `t` as it was. -/
theorem guards_are_per_symbol_and_conjunctive (initialState : S)
    (regs : List (Registration S T W)) (sm : StateMachine S T W) (s : S) (t t' : T)
    (g : S → S → Bool) :
    (sm.CanTransition s t = true ↔
        ∃ dst, sm.edge? s t = some dst ∧ ∀ g' ∈ sm.guardsFor t, g' s dst = true) ∧
      ((build initialState regs).CanTransition s t = true ↔
        ∃ dst, (build initialState regs).edge? s t = some dst ∧
          ∀ g' ∈ guardsRegistered t regs, g' s dst = true) ∧
      ((sm.AddGuard t g).CanTransition s t = true ↔
        ∃ dst, sm.edge? s t = some dst ∧ (∀ g' ∈ sm.guardsFor t, g' s dst = true) ∧
          g s dst = true) ∧
      (t' ≠ t → (sm.AddGuard t' g).CanTransition s t = sm.CanTransition s t) := by
  refine ⟨CanTransition_iff_edge_and_guards sm s t, ?_, ?_, ?_⟩
  · rw [CanTransition_iff_edge_and_guards, guardsFor_build]
  · rw [CanTransition_iff_edge_and_guards, guardsFor_AddGuard, if_pos rfl]
    have he : (sm.AddGuard t g).edge? s t = sm.edge? s t := rfl
    rw [he]
    constructor
    · rintro ⟨dst, h1, h2⟩
      exact ⟨dst, h1, fun g' hg' => h2 g' (List.mem_append_left _ hg'),
        h2 g (List.mem_append_right _ (List.mem_singleton_self g))⟩
    · rintro ⟨dst, h1, h2, h3⟩
      refine ⟨dst, h1, fun g' hg' => ?_⟩
      rcases List.mem_append.1 hg' with h | h
      · exact h2 g' h
      · rw [List.mem_singleton.1 h]; exact h3
  · intro hne
    have h1 := CanTransition_iff_edge_and_guards (sm.AddGuard t' g) s t
    have h2 := CanTransition_iff_edge_and_guards sm s t
    rw [guardsFor_AddGuard, if_neg hne] at h1
    have he : (sm.AddGuard t' g).edge? s t = sm.edge? s t := rfl
    rw [he] at h1
    cases ha : (sm.AddGuard t' g).CanTransition s t with
    | true => exact ((h2.2 (h1.1 ha))).symm
    | false =>
      cases hb : sm.CanTransition s t with
      | false => rfl
      | true => rw [h1.2 (h2.1 hb)] at ha; exact absurd ha (by simp)

/-- Witness for C17: the guard on `go` rejects the edge out of `C` and lets the edge out
of `A` pass; one more guard on `stop` changes nothing for `go`. -/
theorem guards_are_per_symbol_and_conjunctive_witness :
    loggingEngine.CanTransition "A" "go" = true ∧
      loggingEngine.CanTransition "C" "go" = false ∧
      (loggingEngine.AddGuard "stop" (fun _ _ => false)).CanTransition "A" "go" =
        loggingEngine.CanTransition "A" "go" :=
  ⟨by rfl, by rfl,
    (guards_are_per_symbol_and_conjunctive "A" loggingRegistrations loggingEngine "A" "go"
      "stop" (fun _ _ => false)).2.2.2 (by decide)⟩

/-- C19. `AddTransition` is last-write-wins and touches one key only: afterwards the
table maps `(from, t)` to `to`, whatever it mapped to before; every other key reads as
before; the guards, both callback tables and the initial state are unchanged. -/
theorem AddTransition_last_write_wins (sm : StateMachine S T W) (a : S) (b : T) (c : S)
    (s : S) (t : T) :
    (sm.AddTransition a b c).edge? a b = some c ∧
      ((sm.AddTransition a b c).edge? s t =
        if a = s ∧ b = t then some c else sm.edge? s t) ∧
      (sm.AddTransition a b c).guards = sm.guards ∧
      (sm.AddTransition a b c).onEnter = sm.onEnter ∧
      (sm.AddTransition a b c).onExit = sm.onExit ∧
      (sm.AddTransition a b c).initialState = sm.initialState := by
  refine ⟨?_, edge?_AddTransition sm a b c s t, rfl, rfl, rfl, rfl⟩
  rw [edge?_AddTransition]
  simp

theorem ExecuteTransition_of_ok (sm : StateMachine S T W) (s : S) (t : T) (w : W) (next : S)
    (h : sm.GetNextState s t = .ok next) :
    sm.ExecuteTransition s t w =
      (runCallbacks (sm.entersFor next) s (runCallbacks (sm.exitsFor s) next w),
        .ok next) := by
  unfold GetNextState at h
  unfold ExecuteTransition exitsFor entersFor
  cases h1 : sm.transitions.get? s with
  | none => rw [h1] at h; exact absurd h (by simp)
  | some inner =>
    rw [h1] at h
    cases h2 : inner.get? t with
    | none => simp [h2] at h
    | some dst =>
      cases h3 : sm.guardsAllow s t dst with
      | false => simp [h2, h3] at h
      | true =>
        simp only [h2, h3, if_true] at h
        have hd : dst = next := Except.ok.inj h
        subst hd
        simp only [h2, h3, not_true_eq_false, if_false]
        cases sm.onExit.get? s <;> cases sm.onEnter.get? dst <;> rfl

theorem ExecuteTransition_of_error (sm : StateMachine S T W) (s : S) (t : T) (w : W)
    (err : Error) (h : sm.GetNextState s t = .error err) :
    sm.ExecuteTransition s t w =
      (w, .error (if (sm.transitions.get? s).isNone then Error.statemachineErrNoTransitions
        else Error.statemachineErrInvalidTransition)) := by
  unfold GetNextState at h
  unfold ExecuteTransition
  cases h1 : sm.transitions.get? s with
  | none => rfl
  | some inner =>
    rw [h1] at h
    cases h2 : inner.get? t with
    | none => simp [h2]
    | some dst =>
      cases h3 : sm.guardsAllow s t dst with
      | false => simp [h2, h3]
      | true => simp [h2, h3] at h

theorem GetNextState_error_eq (sm : StateMachine S T W) (s : S) (t : T) (err : Error)
    (h : sm.GetNextState s t = .error err) :
    err = Error.statemachineErrInvalidTransition := by
  unfold GetNextState at h
  cases h1 : sm.transitions.get? s with
  | none => rw [h1] at h; exact (Except.error.inj h).symm
  | some inner =>
    rw [h1] at h
    cases h2 : inner.get? t with
    | none => simp only [h2] at h; exact (Except.error.inj h).symm
    | some dst =>
      cases h3 : sm.guardsAllow s t dst with
      | false => simp only [h2, h3] at h; exact (Except.error.inj h).symm
      | true => simp [h2, h3] at h

/-- C18, as amended. `ExecuteTransition` succeeds with the same target exactly when
`GetNextState` succeeds. When the table has an entry for the state (some transition was
registered from it), the two return the same state and the same error. When the table
has no entry for the state, `GetNextState` fails with the invalid-transition error and
`ExecuteTransition` fails with `ErrNoTransitions`, invoking no callback. -/
theorem ExecuteTransition_validates (sm : StateMachine S T W) (s : S) (t : T) (w : W) :
    (∀ next, (sm.ExecuteTransition s t w).2 = .ok next ↔ sm.GetNextState s t = .ok next) ∧
      ((sm.transitions.get? s).isSome = true →
        (sm.ExecuteTransition s t w).2 = sm.GetNextState s t) ∧
      ((sm.transitions.get? s).isNone = true →
        sm.GetNextState s t = .error Error.statemachineErrInvalidTransition ∧
          sm.ExecuteTransition s t w = (w, .error Error.statemachineErrNoTransitions)) := by
  cases hn : sm.GetNextState s t with
  | ok d =>
    rw [ExecuteTransition_of_ok sm s t w d hn]
    refine ⟨fun next => Iff.rfl, fun _ => rfl, fun hnone => ?_⟩
    unfold GetNextState at hn
    cases h1 : sm.transitions.get? s with
    | none => rw [h1] at hn; exact absurd hn (by simp)
    | some inner => rw [h1] at hnone; exact absurd hnone (by simp)
  | error err =>
    have herr := GetNextState_error_eq sm s t err hn
    subst herr
    rw [ExecuteTransition_of_error sm s t w _ hn]
    refine ⟨fun next => by simp, fun hsome => ?_, fun hnone => ?_⟩
    · have : (sm.transitions.get? s).isNone = false := by
        cases h1 : sm.transitions.get? s with
        | none => rw [h1] at hsome; exact absurd hsome (by simp)
        | some inner => rfl
      simp [this]
    · simp [hnone]

/-- Witness for C18 as amended: `A` has an entry in the table, `Z` has none. -/
theorem ExecuteTransition_validates_witness :
    (loggingEngine.ExecuteTransition "A" "stop" []).2 = loggingEngine.GetNextState "A" "stop" ∧
      loggingEngine.ExecuteTransition "Z" "go" [] =
        ([], .error Error.statemachineErrNoTransitions) :=
  ⟨(ExecuteTransition_validates loggingEngine "A" "stop" []).2.1 (by rfl),
    ((ExecuteTransition_validates loggingEngine "Z" "go" []).2.2 (by rfl)).2⟩

/-- C20. For an engine built by `New` and registering calls: when `GetNextState`
succeeds with target `next`, `ExecuteTransition` returns `next` and the world is the
given one after the exit callbacks registered for `current`, each applied once in
registration order to the argument `next`, followed by the enter callbacks registered
for `next`, each applied once in registration order to the argument `current`; when
`GetNextState` fails, the world is the given one: no callback is invoked. -/
theorem ExecuteTransition_callbacks (initialState : S) (regs : List (Registration S T W))
    (current : S) (t : T) (w : W) :
    (∀ next, (build initialState regs).GetNextState current t = .ok next →
        (build initialState regs).ExecuteTransition current t w =
          (runCallbacks (entersRegistered next regs) current
              (runCallbacks (exitsRegistered current regs) next w),
            .ok next)) ∧
      (∀ err, (build initialState regs).GetNextState current t = .error err →
        ((build initialState regs).ExecuteTransition current t w).1 = w) := by
  constructor
  · intro next h
    rw [ExecuteTransition_of_ok _ _ _ _ _ h, exitsFor_build, entersFor_build]
  · intro err h
    rw [ExecuteTransition_of_error _ _ _ _ _ h]

/-- Witness for C20: on `A --go--> B` the two exit callbacks of `A` run before the two
enter callbacks of `B`, each once and in registration order; the enter callback of `A`
does not run; on the guarded edge out of `C` nothing runs. -/
theorem ExecuteTransition_callbacks_witness :
    loggingEngine.ExecuteTransition "A" "go" [] =
        (["exit-1 to B", "exit-2 to B", "enter-1 from A", "enter-2 from A"], .ok "B") ∧
      (loggingEngine.ExecuteTransition "C" "go" []).1 = [] :=
  ⟨(ExecuteTransition_callbacks "A" loggingRegistrations "A" "go" []).1 "B" (by rfl),
    (ExecuteTransition_callbacks "A" loggingRegistrations "C" "go" []).2
      Error.statemachineErrInvalidTransition (by rfl)⟩

/-- Counterexample to C18 as stated: from Closed, a state without any outgoing edge,
`GetNextState` fails with the invalid-transition error while `ExecuteTransition` fails
with `ErrNoTransitions`, so the two do not return the same error. -/
theorem ExecuteTransition_differs_on_edgeless_state :
    proposal.NewProposalStateMachine.GetNextState proposal.StateClosed
        proposal.TransitionStart = .error Error.statemachineErrInvalidTransition ∧
      (proposal.NewProposalStateMachine.ExecuteTransition proposal.StateClosed
        proposal.TransitionStart ()).2 = .error Error.statemachineErrNoTransitions ∧
      (proposal.NewProposalStateMachine.ExecuteTransition proposal.StateClosed
        proposal.TransitionStart ()).2 ≠
        proposal.NewProposalStateMachine.GetNextState proposal.StateClosed
          proposal.TransitionStart := by
  have h1 : proposal.NewProposalStateMachine.GetNextState proposal.StateClosed
      proposal.TransitionStart = .error Error.statemachineErrInvalidTransition := by rfl
  have h2 : (proposal.NewProposalStateMachine.ExecuteTransition proposal.StateClosed
      proposal.TransitionStart ()).2 = .error Error.statemachineErrNoTransitions := by rfl
  refine ⟨h1, h2, ?_⟩
  rw [h1, h2]
  simp

end StateMachine

end statemachine

/-! ## States and their metadata -/

namespace proposal

open common statemachine

/-- C22, the code as it is. The constant block of `states.go` declares 22 pairwise
distinct proposal states, one more than the 21 that its own comments announce. -/
theorem definedStates_are_twenty_two :
    definedStates.length = 22 ∧ definedStates.Nodup ∧ definedStates.length ≠ 21 := by
  decide

theorem metadata_entries_sound :
    ∀ e ∈ GetStateMetadata.metadata, e.2.State = e.1 ∧ 0 ≤ e.2.SLAHours := by
  decide

theorem GetStateMetadata_of_no_entry (state : ProposalState)
    (h : hasMetadataEntry state = false) : GetStateMetadata state = fallbackMetadata state := by
  unfold GetStateMetadata
  have hnone : GetStateMetadata.metadata.find? (fun e => decide (e.1 = state)) = none := by
    rw [List.find?_eq_none]
    intro e he hd
    have : hasMetadataEntry state = true := List.any_eq_true.2 ⟨e, he, hd⟩
    rw [h] at this
    exact absurd this (by simp)
  rw [hnone]
  rfl

theorem GetStateMetadata_of_entry (state : ProposalState)
    (h : hasMetadataEntry state = true) :
    ∃ e ∈ GetStateMetadata.metadata, e.1 = state ∧ GetStateMetadata state = e.2 := by
  unfold GetStateMetadata
  cases hf : GetStateMetadata.metadata.find? (fun e => decide (e.1 = state)) with
  | none =>
    rw [List.find?_eq_none] at hf
    obtain ⟨e, he, hd⟩ := List.any_eq_true.1 h
    exact absurd hd (hf e he)
  | some e =>
    have hmem := List.mem_of_find?_eq_some hf
    have hkey : (fun x : ProposalState × StateMetadata => decide (x.1 = state)) e = true :=
      List.find?_some (p := fun x : ProposalState × StateMetadata => decide (x.1 = state)) hf
    exact ⟨e, hmem, by simpa using hkey, rfl⟩

/-- C23, as amended. The map literal of `GetStateMetadata` has 13 entries, with pairwise
distinct keys that are all defined states; so exactly 13 of the 22 defined states have
an explicit entry, and each of the other nine resolves to the fallback record. -/
theorem metadata_covers_thirteen (state : ProposalState) :
    GetStateMetadata.metadata.length = 13 ∧
      (GetStateMetadata.metadata.map Prod.fst).Nodup ∧
      (∀ e ∈ GetStateMetadata.metadata, e.1 ∈ definedStates) ∧
      (definedStates.filter hasMetadataEntry).length = 13 ∧
      (definedStates.filter (fun s => !hasMetadataEntry s)).length = 9 ∧
      (state ∈ definedStates → hasMetadataEntry state = false →
        GetStateMetadata state = fallbackMetadata state) := by
  refine ⟨rfl, by decide, by decide, by decide, by decide, fun _ h => ?_⟩
  exact GetStateMetadata_of_no_entry state h

/-- Witness for C23 as amended: Rejected is a defined state without an entry. -/
theorem metadata_covers_thirteen_witness :
    GetStateMetadata StateRejected = fallbackMetadata StateRejected :=
  (metadata_covers_thirteen StateRejected).2.2.2.2.2 (by decide) (by decide)

/-- Counterexample to C23 as stated: the defined states with an explicit entry are not
12; among them are Submitted, Awarded, Active and Closed. -/
theorem metadata_entries_are_not_twelve :
    (definedStates.filter hasMetadataEntry).length ≠ 12 ∧
      (definedStates.filter hasMetadataEntry) =
        [StateDraft, StateInProgress, StateInternalReview, StateDeptReview, StateOSPReview,
          StateCompliance, StateBudgetReview, StatePendingApproval, StateApproved,
          StateSubmitted, StateAwarded, StateActive, StateClosed] := by
  decide

/-- C24. For every state value, defined or not: without an explicit entry
`GetStateMetadata` returns the record whose `State` is the queried state, whose
`DisplayName` is the state's code string, whose `RequiredRoles` and `NotificationList`
are empty and whose `SLAHours` is 0; with an explicit entry the returned record's `State`
is the queried state and its `SLAHours` is not negative. -/
theorem GetStateMetadata_fallback_and_entries (state : ProposalState) :
    (hasMetadataEntry state = false →
        (GetStateMetadata state).State = state ∧
          (GetStateMetadata state).DisplayName = ProposalState.String state ∧
          (GetStateMetadata state).RequiredRoles = [] ∧
          (GetStateMetadata state).NotificationList = [] ∧
          (GetStateMetadata state).SLAHours = 0) ∧
      (hasMetadataEntry state = true →
        (GetStateMetadata state).State = state ∧ 0 ≤ (GetStateMetadata state).SLAHours) := by
  constructor
  · intro h
    rw [GetStateMetadata_of_no_entry state h]
    exact ⟨rfl, rfl, rfl, rfl, rfl⟩
  · intro h
    obtain ⟨e, he, hk, hg⟩ := GetStateMetadata_of_entry state h
    rw [hg, ← hk]
    exact metadata_entries_sound e he

/-- Witness for C24: a string that is no defined state, and the state InternalReview. -/
theorem GetStateMetadata_fallback_and_entries_witness :
    (GetStateMetadata "ARCHIVED").DisplayName = "ARCHIVED" ∧
      (GetStateMetadata "ARCHIVED").RequiredRoles = [] ∧
      (GetStateMetadata StateInternalReview).State = StateInternalReview :=
  ⟨((GetStateMetadata_fallback_and_entries "ARCHIVED").1 (by decide)).2.1,
    ((GetStateMetadata_fallback_and_entries "ARCHIVED").1 (by decide)).2.2.1,
    ((GetStateMetadata_fallback_and_entries StateInternalReview).2 (by decide)).1⟩

/-- C29, the code at the failing input. For the year 2026 and the UUID
`01234567-89ab-cdef-0123-456789abcdef` the result is `PROP-`, the single character
U+07EA (code point 2026), `-` and `012345`: 13 characters, not the announced
`PROP-2026-012345`. -/
theorem generateProposalNumber_year_is_one_rune :
    generateProposalNumber 0x0123456789abcdef0123456789abcdef 2026 =
        "PROP-" ++ String.singleton (Char.ofNat 2026) ++ "-012345" ∧
      (generateProposalNumber 0x0123456789abcdef0123456789abcdef 2026).length = 13 ∧
      generateProposalNumber 0x0123456789abcdef0123456789abcdef 2026 ≠ "PROP-2026-012345" := by
  decide

/-! ## Authorization in states without metadata -/

theorem canPerformTransition_of_no_entry (s : Service) (tenantCtx : TenantContext)
    (p : Proposal) (t : ProposalTransition) (h : hasMetadataEntry p.State = false) :
    s.canPerformTransition tenantCtx p t = true ↔
      (t = TransitionWithdraw ∧ p.PrincipalInvestigatorID = tenantCtx.UserID) := by
  unfold Service.canPerformTransition
  rw [GetStateMetadata_of_no_entry p.State h]
  simp [fallbackMetadata]

/-- C27. For every proposal whose current state has no explicit metadata entry (the nine
named states are such states), `canPerformTransition` is true only for `Withdraw`
requested by the proposal's principal investigator, whatever roles the actor holds.
Consequently `TransitionProposal` on such a proposal with any transition other than
`Withdraw` (Reopen from Rejected, SubmitForReview from Revisions, SubmitToSponsor from
ReadyToSubmit, every outcome from UnderReview or Negotiation, Close from Closeout) never
succeeds: it fails with `ErrVersionMismatch` or `ErrUnauthorized` and leaves the proposal
as it was. -/
theorem uncovered_states_admit_only_PI_withdraw (s : Service) (tenantCtx : TenantContext)
    (input : TransitionProposalInput) (clock : Clock) (p : Proposal) (t : ProposalTransition) :
    (∀ st ∈ specUncovered, hasMetadataEntry st = false) ∧
      (hasMetadataEntry p.State = false →
        (s.canPerformTransition tenantCtx p t = true ↔
          (t = TransitionWithdraw ∧ p.PrincipalInvestigatorID = tenantCtx.UserID))) ∧
      (s.repo.FindByID tenantCtx.TenantID input.ProposalID = .ok (some p) →
        hasMetadataEntry p.State = false → input.Transition ≠ TransitionWithdraw →
        ((s.TransitionProposal tenantCtx input clock).result = .error Error.ErrVersionMismatch ∨
            (s.TransitionProposal tenantCtx input clock).result =
              .error Error.ErrUnauthorized) ∧
          (s.TransitionProposal tenantCtx input clock).aggregate = some p) := by
  refine ⟨by decide, canPerformTransition_of_no_entry s tenantCtx p t, ?_⟩
  intro hfind hno ht
  rw [TransitionProposal_found s tenantCtx input clock p hfind]
  by_cases hv : input.ExpectedVersion > 0 ∧ p.Version ≠ input.ExpectedVersion
  · rw [if_pos hv]
    exact ⟨Or.inl rfl, rfl⟩
  · rw [if_neg hv]
    have hcan : s.canPerformTransition tenantCtx p input.Transition = false := by
      cases hc : s.canPerformTransition tenantCtx p input.Transition with
      | false => rfl
      | true =>
        exact absurd ((canPerformTransition_of_no_entry s tenantCtx p _ hno).1 hc).1 ht
    rw [if_pos hcan]
    exact ⟨Or.inr rfl, rfl⟩

/-- Witness for C27: an actor holding every role of the registry asks for `Reopen` on a
rejected proposal. -/
theorem uncovered_states_admit_only_PI_withdraw_witness :
    sampleService.canPerformTransition
        { TenantID := 1, UserID := 9, Roles := ["PI", "OSP_OFFICER", "GRANTS_ADMIN"] }
        { sampleProposal with State := StateRejected } TransitionReopen = false ∧
      (Service.TransitionProposal
          { repo := { Save := fun _ => none
                      FindByID := fun _ _ =>
                        .ok (some { sampleProposal with State := StateRejected }) }
            eventStore := none, publisher := none }
          { TenantID := 1, UserID := 9, Roles := ["PI", "OSP_OFFICER", "GRANTS_ADMIN"] }
          (sampleInput TransitionReopen) sampleClock).aggregate =
        some { sampleProposal with State := StateRejected } :=
  ⟨by
      cases hc : sampleService.canPerformTransition
          { TenantID := 1, UserID := 9, Roles := ["PI", "OSP_OFFICER", "GRANTS_ADMIN"] }
          { sampleProposal with State := StateRejected } TransitionReopen with
      | false => rfl
      | true =>
        exact absurd (((uncovered_states_admit_only_PI_withdraw sampleService
          { TenantID := 1, UserID := 9, Roles := ["PI", "OSP_OFFICER", "GRANTS_ADMIN"] }
          (sampleInput TransitionReopen) sampleClock
          { sampleProposal with State := StateRejected } TransitionReopen).2.1
          (by decide)).1 hc).1 (by decide),
    ((uncovered_states_admit_only_PI_withdraw
      { repo := { Save := fun _ => none
                  FindByID := fun _ _ =>
                    .ok (some { sampleProposal with State := StateRejected }) }
        eventStore := none, publisher := none }
      { TenantID := 1, UserID := 9, Roles := ["PI", "OSP_OFFICER", "GRANTS_ADMIN"] }
      (sampleInput TransitionReopen) sampleClock
      { sampleProposal with State := StateRejected } TransitionReopen).2.2
      rfl (by decide) (by decide)).2⟩

/-! ## The audit trail -/

theorem mutate_trail_step (q : Proposal) (m : Mutation) :
    ((q.mutate m).1.State = q.State ∧ (q.mutate m).1.StateHistory = q.StateHistory) ∨
      ∃ (t : ProposalTransition) (userID : UUID) (comment : String) (at_ : Time)
        (next : ProposalState),
        NewProposalStateMachine.GetNextState q.State t = .ok next ∧
          (q.mutate m).1.State = next ∧
          (q.mutate m).1.StateHistory =
            q.StateHistory ++
              [{ FromState := q.State, ToState := next, Transition := t,
                 PerformedBy := userID, PerformedAt := at_, Comment := comment }] := by
  cases m with
  | TransitionTo t userID comment clock =>
    simp only [Proposal.mutate]
    cases hn : NewProposalStateMachine.GetNextState q.State t with
    | error err =>
      rw [TransitionTo_of_error q t userID comment clock err hn]
      exact Or.inl ⟨rfl, rfl⟩
    | ok next =>
      obtain ⟨_, h1, _, h3, _, _⟩ := TransitionTo_of_ok q t userID comment clock next hn
      exact Or.inr ⟨t, userID, comment, clock.performedAt, next, hn, h1, h3⟩
  | Update userID updates now =>
    simp only [Proposal.mutate]
    cases h : q.CanEdit with
    | false =>
      have : q.Update userID updates now = (q, some Error.ErrProposalNotEditable) := by
        unfold Proposal.Update; rw [if_pos (by simp [h])]
      rw [this]
      exact Or.inl ⟨rfl, rfl⟩
    | true =>
      obtain ⟨q', hq, _, hh, hs⟩ := Update_of_editable q userID updates now h
      rw [hq]
      exact Or.inl ⟨hs, hh⟩
  | AddCoInvestigator userID coiID now =>
    simp only [Proposal.mutate]
    unfold Proposal.AddCoInvestigator
    split_ifs <;> exact Or.inl ⟨rfl, rfl⟩
  | RemoveCoInvestigator userID coiID now =>
    simp only [Proposal.mutate]
    unfold Proposal.RemoveCoInvestigator
    split_ifs <;> exact Or.inl ⟨rfl, rfl⟩
  | AddKeyPerson userID keyPerson now =>
    simp only [Proposal.mutate]
    unfold Proposal.AddKeyPerson
    split_ifs <;> exact Or.inl ⟨rfl, rfl⟩
  | AddAttachment userID attachment newID uploadedAt now =>
    simp only [Proposal.mutate]
    unfold Proposal.AddAttachment
    split_ifs <;> exact Or.inl ⟨rfl, rfl⟩

theorem auditTrailOK_step (start : ProposalState) (q : Proposal) (m : Mutation)
    (h : auditTrailOK start q.StateHistory q.State) :
    auditTrailOK start (q.mutate m).1.StateHistory (q.mutate m).1.State := by
  rcases mutate_trail_step q m with ⟨hs, hh⟩ | ⟨t, userID, comment, at_, next, hn, hs, hh⟩
  · rw [hs, hh]; exact h
  · obtain ⟨h1, h2, h3, h4, h5⟩ := h
    have hedge : (q.State, t, next) ∈ NewProposalStateMachine.transitions :=
      (GetNextState_eq_ok_iff _ _ _).1 hn
    rw [hs, hh]
    refine ⟨?_, ?_, ?_, ?_, ?_⟩
    · intro e he
      cases hq : q.StateHistory with
      | nil =>
        rw [hq] at he
        simp at he
        rw [← he]
        exact h5 hq
      | cons a rest =>
        rw [hq] at he h1
        simp at he
        rw [← he]
        exact h1 a (by simp)
    · rw [List.chain'_append]
      refine ⟨h2, List.chain'_singleton _, ?_⟩
      intro x hx y hy
      simp at hy
      rw [← hy]
      exact h3 x hx
    · intro e he
      rw [List.getLast?_concat] at he
      simp at he
      rw [← he]
    · intro e he
      rcases List.mem_append.1 he with he | he
      · exact h4 e he
      · rw [List.mem_singleton.1 he]
        exact hedge
    · intro hnil
      simp at hnil

theorem auditTrailOK_mutateAll (start : ProposalState) (ms : List Mutation) :
    ∀ q : Proposal, auditTrailOK start q.StateHistory q.State →
      auditTrailOK start (q.mutateAll ms).StateHistory (q.mutateAll ms).State := by
  induction ms with
  | nil => intro q h; exact h
  | cons m rest ih =>
    intro q h
    rw [Proposal.mutateAll]
    exact ih _ (auditTrailOK_step start q m h)

/-- C26. Audit-trail chain invariant. A proposal created by `NewProposal` is in Draft with
an empty history; after any sequence of the aggregate's operations on a proposal in Draft
with an empty history, the first history entry (if any) starts in Draft, each entry's
`ToState` is the next entry's `FromState`, the last entry's `ToState` is the current
state, and every entry `(FromState, Transition, ToState)` is an edge of the workflow
table. -/
theorem audit_trail_is_a_chain (tenantID : TenantID) (userID : UUID) (title : String)
    (piID sponsorID : UUID) (department : String) (projectPeriod : DateRange)
    (clock : CreationClock) (p : Proposal) (ms : List Mutation) :
    ((NewProposal tenantID userID title piID sponsorID department projectPeriod
          clock).State = StateDraft ∧
        (NewProposal tenantID userID title piID sponsorID department projectPeriod
          clock).StateHistory = []) ∧
      (p.State = StateDraft → p.StateHistory = [] →
        (∀ h ∈ (p.mutateAll ms).StateHistory.head?, h.FromState = StateDraft) ∧
          (p.mutateAll ms).StateHistory.Chain' (fun a b => a.ToState = b.FromState) ∧
          (∀ h ∈ (p.mutateAll ms).StateHistory.getLast?, h.ToState = (p.mutateAll ms).State) ∧
          (∀ h ∈ (p.mutateAll ms).StateHistory,
            (h.FromState, h.Transition, h.ToState) ∈ NewProposalStateMachine.transitions)) := by
  refine ⟨⟨rfl, rfl⟩, ?_⟩
  intro hs hh
  have h0 : auditTrailOK StateDraft p.StateHistory p.State := by
    rw [hh, hs]
    exact ⟨by simp, List.chain'_nil, by simp, by simp, fun _ => rfl⟩
  obtain ⟨h1, h2, h3, h4, _⟩ := auditTrailOK_mutateAll StateDraft ms p h0
  exact ⟨h1, h2, h3, h4⟩

/-- Witness for C26: a new proposal after `Start`, a field update and `SubmitForReview`. -/
theorem audit_trail_is_a_chain_witness :
    ((sampleProposal.mutateAll
        [Mutation.TransitionTo TransitionStart 3 "" sampleClock,
          Mutation.Update 3 noUpdates 30,
          Mutation.TransitionTo TransitionSubmitForReview 3 "" sampleClock]).StateHistory.map
        StateTransition.edge =
      [(StateDraft, TransitionStart, StateInProgress),
        (StateInProgress, TransitionSubmitForReview, StateInternalReview)]) ∧
      (sampleProposal.mutateAll
        [Mutation.TransitionTo TransitionStart 3 "" sampleClock,
          Mutation.Update 3 noUpdates 30,
          Mutation.TransitionTo TransitionSubmitForReview 3 "" sampleClock]).StateHistory.Chain'
        (fun a b => a.ToState = b.FromState) :=
  ⟨by rfl,
    ((audit_trail_is_a_chain 1 2 "Soil microbiome survey" 3 4 "Biology"
      { StartDate := 100, EndDate := 200 }
      { entityID := 5, createdAt := 10, year := 2026, eventID := 6, occurredAt := 10 }
      sampleProposal
      [Mutation.TransitionTo TransitionStart 3 "" sampleClock,
        Mutation.Update 3 noUpdates 30,
        Mutation.TransitionTo TransitionSubmitForReview 3 "" sampleClock]).2 rfl rfl).2.1⟩

/-! ## After submission -/

theorem postSubmission_closed :
    ∀ e ∈ NewProposalStateMachine.transitions,
      e.1 ∈ postSubmission → e.2.2 ∈ postSubmission := by
  decide

theorem postSubmission_not_editable :
    ∀ s ∈ postSubmission,
      ProposalState.CanEdit s = false ∧ s ≠ StateWithdrawn ∧ s ≠ StateDraft ∧
        s ≠ StateInProgress ∧ s ≠ StateRevisions := by
  decide

theorem mutateAll_stays_postSubmission (ms : List Mutation) :
    ∀ q : Proposal, q.State ∈ postSubmission → (q.mutateAll ms).State ∈ postSubmission := by
  induction ms with
  | nil => intro q h; exact h
  | cons m rest ih =>
    intro q h
    rw [Proposal.mutateAll]
    apply ih
    rcases mutate_trail_step q m with ⟨hs, _⟩ | ⟨t, _, _, _, next, hn, hs, _⟩
    · rw [hs]; exact h
    · rw [hs]
      exact postSubmission_closed _ ((GetNextState_eq_ok_iff _ _ _).1 hn) h

theorem walk_stays_postSubmission
    (edges : List (ProposalState × ProposalTransition × ProposalState)) :
    ∀ s, s ∈ postSubmission → isWalk s edges = true →
      edges.foldl (fun _ e => e.2.2) s ∈ postSubmission := by
  induction edges with
  | nil => intro s hs _; exact hs
  | cons e rest ih =>
    intro s hs hw
    simp only [isWalk, Bool.and_eq_true, decide_eq_true_eq] at hw
    obtain ⟨⟨he, hmem⟩, hrest⟩ := hw
    rw [List.foldl_cons]
    exact ih _ (postSubmission_closed e hmem (he ▸ hs)) hrest

/-- C28. Once a proposal has reached Submitted it is never editable and never withdrawn
again: Submitted is one of the nine post-submission states; every walk of the workflow
table that starts in Submitted ends in one of them; an aggregate in one of them stays in
one of them under any sequence of its operations, with `CanEdit()` false and a state
other than Withdrawn; and in each of the nine `CanEdit()` is false and the state is none
of Withdrawn, Draft, InProgress, Revisions. -/
theorem submitted_is_a_point_of_no_return (p : Proposal) (ms : List Mutation)
    (edges : List (ProposalState × ProposalTransition × ProposalState)) :
    StateSubmitted ∈ postSubmission ∧
      (isWalk StateSubmitted edges = true →
        edges.foldl (fun _ e => e.2.2) StateSubmitted ∈ postSubmission) ∧
      (p.State ∈ postSubmission →
        (p.mutateAll ms).State ∈ postSubmission ∧ (p.mutateAll ms).CanEdit = false ∧
          (p.mutateAll ms).State ≠ StateWithdrawn) ∧
      (∀ s ∈ postSubmission,
        ProposalState.CanEdit s = false ∧ s ≠ StateWithdrawn ∧ s ≠ StateDraft ∧
          s ≠ StateInProgress ∧ s ≠ StateRevisions) := by
  refine ⟨by decide, walk_stays_postSubmission edges _ (by decide), ?_,
    postSubmission_not_editable⟩
  intro h
  have hm := mutateAll_stays_postSubmission ms p h
  exact ⟨hm, (postSubmission_not_editable _ hm).1, (postSubmission_not_editable _ hm).2.1⟩

/-- Witness for C28: a submitted proposal after sponsor review, an award and an
attempted withdrawal. -/
theorem submitted_is_a_point_of_no_return_witness :
    (submittedProposal.mutateAll
        [Mutation.TransitionTo TransitionAdvanceReview 3 "" sampleClock,
          Mutation.TransitionTo TransitionAward 3 "" sampleClock,
          Mutation.TransitionTo TransitionWithdraw 3 "" sampleClock]).State = StateAwarded ∧
      (submittedProposal.mutateAll
        [Mutation.TransitionTo TransitionAdvanceReview 3 "" sampleClock,
          Mutation.TransitionTo TransitionAward 3 "" sampleClock,
          Mutation.TransitionTo TransitionWithdraw 3 "" sampleClock]).CanEdit = false ∧
      [(StateSubmitted, TransitionAdvanceReview, StateUnderReview),
          (StateUnderReview, TransitionNegotiate, StateNegotiation)].foldl
        (fun _ e => e.2.2) StateSubmitted ∈ postSubmission :=
  ⟨by rfl,
    ((submitted_is_a_point_of_no_return submittedProposal
      [Mutation.TransitionTo TransitionAdvanceReview 3 "" sampleClock,
        Mutation.TransitionTo TransitionAward 3 "" sampleClock,
        Mutation.TransitionTo TransitionWithdraw 3 "" sampleClock] []).2.2.1
      (by decide)).2.1,
    (submitted_is_a_point_of_no_return submittedProposal []
      [(StateSubmitted, TransitionAdvanceReview, StateUnderReview),
        (StateUnderReview, TransitionNegotiate, StateNegotiation)]).2.1 (by decide)⟩

end proposal

/-! ## Persistence and the embedding cache -/

namespace postgres

open common proposal

/-- C25, the code at the failing input. The proposal is stored at version 1 and loaded;
one successful `TransitionTo` raises the in-memory version to 2; `Save` then compares
the stored version with 2, affects no row and returns `ErrVersionMismatch` although the
stored version is still 1. Had another writer moved the stored row on to version 2,
the same `Save` would pass. -/
theorem Save_compares_with_the_incremented_version :
    (ProposalRepository.FindByID storedRows sampleProposal.ID).map (fun row => row.Version) =
        some 1 ∧
      (sampleProposal.TransitionTo TransitionStart 3 "" sampleClock).2 = none ∧
      startedProposal.ID = sampleProposal.ID ∧
      startedProposal.Version = 2 ∧
      (ProposalRepository.Save storedRows startedProposal).2 = some Error.ErrVersionMismatch ∧
      ((ProposalRepository.Save storedRows startedProposal).1.get? sampleProposal.ID).map
        (fun row => (row.Version, row.State)) = some (1, StateDraft) ∧
      (ProposalRepository.Save movedRows startedProposal).2 = none := by
  refine ⟨by rfl, by rfl, by rfl, by rfl, by rfl, by rfl, by rfl⟩

end postgres

namespace ruvector

/-- C30, the code at the failing input. In a cache of capacity 2 holding `a` then `b`,
`a` is read with `Get` (a hit) and then `c` is set: the entry evicted is `a`, the one
just read, while `b`, used longer ago, stays. The same happens when `a` is written again
with `Set` before `c` arrives. Eviction follows insertion order, not use. -/
theorem EmbeddingCache_evicts_by_insertion_order :
    (twoEntryCache.Get "a").isSome = true ∧
      ((twoEntryCache.Set "c" []).Get "a").isSome = false ∧
      ((twoEntryCache.Set "c" []).Get "b").isSome = true ∧
      (twoEntryCache.Set "c" []).order = ["b", "c"] ∧
      (twoEntryCache.Set "c" []).Size = 2 ∧
      (((twoEntryCache.Set "a" []).Set "c" []).Get "a").isSome = false ∧
      (((twoEntryCache.Set "a" []).Set "c" []).Get "b").isSome = true := by
  refine ⟨by rfl, by rfl, by rfl, by rfl, by rfl, by rfl, by rfl⟩

end ruvector

/-! ## The engine: cloning -/

namespace statemachine

namespace StateMachine

variable {S T W : Type} [DecidableEq S] [DecidableEq T]

theorem cloneInner_fields (l : List (T × S)) (src : S) :
    ∀ c : StateMachine S T W,
      (cloneInner c src l).guards = c.guards ∧ (cloneInner c src l).onEnter = c.onEnter ∧
        (cloneInner c src l).onExit = c.onExit ∧
        (cloneInner c src l).initialState = c.initialState := by
  induction l with
  | nil => intro c; exact ⟨rfl, rfl, rfl, rfl⟩
  | cons e rest ih => intro c; exact ih (c.AddTransition src e.1 e.2)

theorem cloneOuter_fields (l : List (S × GoMap T S)) :
    ∀ c : StateMachine S T W,
      (cloneOuter c l).guards = c.guards ∧ (cloneOuter c l).onEnter = c.onEnter ∧
        (cloneOuter c l).onExit = c.onExit ∧
        (cloneOuter c l).initialState = c.initialState := by
  induction l with
  | nil => intro c; exact ⟨rfl, rfl, rfl, rfl⟩
  | cons e rest ih =>
    intro c
    obtain ⟨h1, h2, h3, h4⟩ := ih (cloneInner c e.1 e.2.entries)
    obtain ⟨k1, k2, k3, k4⟩ := cloneInner_fields e.2.entries e.1 c
    rw [cloneOuter]
    exact ⟨h1.trans k1, h2.trans k2, h3.trans k3, h4.trans k4⟩

theorem find?_eq_none_of_not_mem_keys {K V : Type} [DecidableEq K] (l : List (K × V)) (k : K)
    (h : k ∉ l.map Prod.fst) : l.find? (fun e => decide (e.1 = k)) = none := by
  rw [List.find?_eq_none]
  intro e he hd
  have hk : e.1 = k := by simpa using hd
  exact h (List.mem_map.2 ⟨e, he, hk⟩)

theorem edge?_cloneInner (l : List (T × S)) (src s : S) (t : T)
    (hl : (l.map Prod.fst).Nodup) :
    ∀ c : StateMachine S T W,
      (cloneInner c src l).edge? s t =
        if src = s then
          match (l.find? (fun e => decide (e.1 = t))).map Prod.snd with
          | some d => some d
          | none => c.edge? s t
        else c.edge? s t := by
  induction l with
  | nil => intro c; by_cases h : src = s <;> simp [cloneInner, h]
  | cons e rest ih =>
    intro c
    rw [List.map_cons, List.nodup_cons] at hl
    rw [cloneInner, ih hl.2, edge?_AddTransition]
    by_cases hs : src = s
    · simp only [hs, if_true, true_and]
      by_cases ht : e.1 = t
      · have hnone := find?_eq_none_of_not_mem_keys rest t (ht ▸ hl.1)
        simp [List.find?_cons, ht, hnone]
      · simp [List.find?_cons, ht]
    · simp only [hs, if_false, false_and]

theorem edge?_cloneOuter (l : List (S × GoMap T S)) (s : S) (t : T)
    (hl : (l.map Prod.fst).Nodup) :
    ∀ c : StateMachine S T W,
      (cloneOuter c l).edge? s t =
        match (l.find? (fun e => decide (e.1 = s))).map Prod.snd with
        | some inner =>
          (match inner.get? t with
            | some d => some d
            | none => c.edge? s t)
        | none => c.edge? s t := by
  induction l with
  | nil => intro c; rfl
  | cons e rest ih =>
    intro c
    rw [List.map_cons, List.nodup_cons] at hl
    rw [cloneOuter, ih hl.2, edge?_cloneInner e.2.entries e.1 s t e.2.nodupKeys]
    by_cases hs : e.1 = s
    · have hnone := find?_eq_none_of_not_mem_keys rest s (hs ▸ hl.1)
      simp only [hnone, List.find?_cons, hs, decide_True, Option.map_some', Option.map_none',
        if_true]
      rfl
    · simp only [List.find?_cons, hs, decide_False, if_false]

theorem edge?_Clone (sm : StateMachine S T W) (s : S) (t : T) :
    sm.Clone.edge? s t = sm.edge? s t := by
  unfold Clone
  rw [edge?_cloneOuter _ s t sm.transitions.nodupKeys]
  have hnew : (New sm.initialState : StateMachine S T W).edge? s t = none := rfl
  rw [hnew]
  unfold edge? GoMap.get?
  cases (sm.transitions.entries.find? (fun e => decide (e.1 = s))).map Prod.snd with
  | none => rfl
  | some inner =>
    simp only []
    cases (inner.entries.find? (fun e => decide (e.1 = t))).map Prod.snd <;> rfl

omit [DecidableEq S] [DecidableEq T] in
theorem mem_GetAllTransitions_aux (sm : StateMachine S T W) (info : TransitionInfo S T) :
    info ∈ sm.GetAllTransitions ↔
      ∃ inner, (info.From, inner) ∈ sm.transitions.entries ∧
        (info.Transition, info.To) ∈ inner.entries := by
  unfold GetAllTransitions
  rw [List.mem_flatMap]
  constructor
  · rintro ⟨⟨a, inner⟩, he, hm⟩
    obtain ⟨⟨b, c⟩, he', rfl⟩ := List.mem_map.1 hm
    exact ⟨inner, he, he'⟩
  · rintro ⟨inner, he, he'⟩
    exact ⟨(info.From, inner), he, List.mem_map.2 ⟨(info.Transition, info.To), he', rfl⟩⟩

theorem mem_GetAllTransitions (sm : StateMachine S T W) (info : TransitionInfo S T) :
    info ∈ sm.GetAllTransitions ↔ sm.edge? info.From info.Transition = some info.To := by
  rw [mem_GetAllTransitions_aux]
  unfold edge?
  constructor
  · rintro ⟨inner, he, he'⟩
    rw [(GoMap.mem_entries_iff _ _ _).1 he]
    exact (GoMap.mem_entries_iff _ _ _).1 he'
  · intro h
    cases hg : sm.transitions.get? info.From with
    | none => rw [hg] at h; exact absurd h (by simp)
    | some inner =>
      rw [hg] at h
      exact ⟨inner, (GoMap.mem_entries_iff _ _ _).2 hg, (GoMap.mem_entries_iff _ _ _).2 h⟩

/-- C21. `Clone` copies the topology and nothing else. For every engine `sm`: the clone
has the same initial state; `GetAllTransitions` of the clone and of `sm` have the same
members, which are the triples of the table; the clone has no guards and no callbacks;
so on the clone `GetNextState(from, t)` succeeds with target `to` exactly when the table
of `sm` maps `(from, t)` to `to`, whatever the guards of `sm` say. `Clone` only reads
`sm`: the engine it was called on is the same value afterwards. -/
theorem Clone_copies_topology_only (sm : StateMachine S T W) (s : S) (t : T) (d : S)
    (info : TransitionInfo S T) :
    sm.Clone.initialState = sm.initialState ∧
      (info ∈ sm.Clone.GetAllTransitions ↔ info ∈ sm.GetAllTransitions) ∧
      (info ∈ sm.GetAllTransitions ↔ sm.edge? info.From info.Transition = some info.To) ∧
      sm.Clone.edge? s t = sm.edge? s t ∧
      sm.Clone.guards = GoMap.make ∧
      sm.Clone.onEnter = GoMap.make ∧
      sm.Clone.onExit = GoMap.make ∧
      (sm.Clone.GetNextState s t = .ok d ↔ sm.edge? s t = some d) := by
  obtain ⟨h1, h2, h3, h4⟩ :=
    cloneOuter_fields sm.transitions.entries (New sm.initialState : StateMachine S T W)
  have hg : sm.Clone.guards = GoMap.make := h1
  refine ⟨h4, ?_, mem_GetAllTransitions sm info, edge?_Clone sm s t, hg, h2, h3, ?_⟩
  · rw [mem_GetAllTransitions, mem_GetAllTransitions, edge?_Clone]
  · rw [GetNextState_of_no_guards _ hg, edge?_Clone]
    cases sm.edge? s t with
    | none => simp
    | some d' => simp

end StateMachine

end statemachine

end Huron
